import Mathlib

/-!
Verification of the `container-build-checks` image policy checker.

The definitions below are a shallow embedding of `container-build-checks.py`:
the container metadata (`Containerinfo`), the normalized image view (`Image`),
the issue accumulator (`CheckResult`), the label rule table (`LABEL_INFO`),
and the policy functions (`verify_disturl`, `verify_reference`,
`check_labels`, `check_image`) together with the archive reader
(`imageInit`) and the process exit logic (`exit_code`).
Python dictionaries are modelled as insertion-ordered association lists,
Python string truthiness is modelled explicitly, and the issue counters are
modelled as the recorded message lists (the counter is the list length).
-/

/-! ## String and list preliminaries -/

/-- Containment of one character list inside another, mirroring Python's
`sub in hay` substring test. -/
def listContains (sub : List Char) : List Char → Bool
  | [] => sub.isEmpty
  | c :: rest => sub.isPrefixOf (c :: rest) || listContains sub rest

/-- Python's `sub in hay` substring test on strings. -/
def strContains (hay sub : String) : Bool :=
  listContains sub.data hay.data

/-- Python's `s.endswith(suf)`. -/
def strEndsWith (s suf : String) : Bool :=
  suf.data.isSuffixOf s.data

/-- Python's `s.startswith(pre)`. -/
def strStartsWith (s pre : String) : Bool :=
  pre.data.isPrefixOf s.data

/-- Python's `s[0:-n]`: drop the last `n` characters. -/
def dropRightStr (s : String) (n : Nat) : String :=
  ⟨s.data.take (s.data.length - n)⟩

/-- The first two characters of a string; used to tell the fixed message
templates of the checker apart. -/
def take2 (s : String) : List Char :=
  s.data.take 2

/-- Split a character list at the first occurrence of `c`, returning the
part before and the part after it. -/
def splitFirst (c : Char) : List Char → Option (List Char × List Char)
  | [] => none
  | x :: xs =>
    if x = c then some ([], xs)
    else (splitFirst c xs).map (fun ab => (x :: ab.1, ab.2))

/-- Python's `repr` of a list of strings, as used by an f-string such as
`f"... {reference_labels}"`. -/
def pyStrList (xs : List String) : String :=
  "[" ++ String.intercalate ", " (xs.map (fun s => "\x27" ++ s ++ "\x27")) ++ "]"

/-! ## fnmatch.fnmatchcase

`match_patterns` in the source runs `fnmatch.fnmatchcase` on each pattern.
`globMatch` implements the fnmatch pattern language: `*`, `?`, and `[...]`
character classes (with `!` negation and `-` ranges); a `[` without a
closing `]` is a literal. -/

/-- Scan to the closing `]` of a character class, returning the class body
and the remainder of the pattern. -/
def findClose : List Char → Option (List Char × List Char)
  | [] => none
  | c :: rest =>
    if c = ']' then some ([], rest)
    else
      match findClose rest with
      | none => none
      | some (a, b) => some (c :: a, b)

/-- Does character `c` match the body of a `[...]` class (ranges included)? -/
def classMatch : List Char → Char → Bool
  | a :: '-' :: b :: rest, c => (decide (a ≤ c) && decide (c ≤ b)) || classMatch rest c
  | a :: rest, c => (a == c) || classMatch rest c
  | [], _ => false

/-- fnmatch-style glob matching of pattern `p` against string `s`. -/
def globMatch : List Char → List Char → Bool
  | [], s => s.isEmpty
  | '*' :: ps, [] => globMatch ps []
  | '*' :: ps, c :: s' => globMatch ps (c :: s') || globMatch ('*' :: ps) s'
  | '?' :: _, [] => false
  | '?' :: ps, _ :: s' => globMatch ps s'
  | '[' :: _, [] => false
  | '[' :: ps, c :: s' =>
    let neg := ps.head? == some '!'
    let core := if neg then ps.tail else ps
    let scanned :=
      match core with
      | ']' :: t =>
        match findClose t with
        | none => none
        | some (a, b) => some (']' :: a, b)
      | _ => findClose core
    match scanned with
    | none => (c == '[') && globMatch ps s'
    | some (stuff, rest) => (classMatch stuff c != neg) && globMatch rest s'
  | _ :: _, [] => false
  | p₀ :: ps, c :: s' => (p₀ == c) && globMatch ps s'
termination_by p s => (s.length, p.length)

/-- `fnmatch.fnmatchcase(needle, pattern)`. -/
def fnmatchcase (needle pattern : String) : Bool :=
  globMatch pattern.data needle.data

/-- `match_patterns` from the source: the first pattern in `patterns` that
matches `needle`, if any. -/
def match_patterns (needle : String) (patterns : List String) : Option String :=
  patterns.find? (fun pattern => fnmatchcase needle pattern)

/-! ## Data model -/

/-- One entry of the `repos` field of a containerinfo file. -/
structure Repo where
  url : String
deriving DecidableEq

/-- The build metadata read from a `.containerinfo` file; fields that may be
absent from the JSON dictionary are `Option`s. -/
structure Containerinfo where
  file : String
  tags : List String
  disturl : Option String
  release : Option String
  repos : Option (List Repo)

/-- The normalized image view consumed by the policy engine: the build
metadata plus the label map of the image configuration (insertion-ordered,
as a Python dict). -/
structure Image where
  containerinfo : Containerinfo
  labels : List (String × String)

/-- `is_local_build` from `Image.__init__`: both `release` and `disturl`
are absent from the containerinfo. -/
def Image.is_local_build (image : Image) : Bool :=
  image.containerinfo.release.isNone && image.containerinfo.disturl.isNone

/-- The configuration options the checker reads. -/
structure Config where
  fatalWarnings : Bool
  vendor : String
  registry : String
  allowed : List String
  blocked : List String

/-- The issue accumulator; the source keeps three counters and prints each
message, here the messages are recorded and a counter is a list length. -/
structure CheckResult where
  hints : List String
  warnings : List String
  errors : List String

def CheckResult.hint (r : CheckResult) (msg : String) : CheckResult :=
  ⟨r.hints ++ [msg], r.warnings, r.errors⟩

def CheckResult.warn (r : CheckResult) (msg : String) : CheckResult :=
  ⟨r.hints, r.warnings ++ [msg], r.errors⟩

def CheckResult.error (r : CheckResult) (msg : String) : CheckResult :=
  ⟨r.hints, r.warnings, r.errors ++ [msg]⟩

def emptyResult : CheckResult := ⟨[], [], []⟩

/-- The two custom verifiers attached to entries of the label table. -/
inductive VKind where
  | disturl : VKind
  | reference : VKind
deriving DecidableEq

/-- One entry of the label rule table (`LabelInfo` in the source). -/
structure LabelInfo where
  pfx : String
  suffix : String
  mandatory : Bool
  mandatory_derived : Bool
  verifier : Option VKind

/-- `LabelInfo.oci`: the canonical label name `prefix.suffix`. -/
def LabelInfo.oci (li : LabelInfo) : String :=
  li.pfx ++ "." ++ li.suffix

/-- `LABEL_INFO`: the fixed rule table of the source, in source order. -/
def LABEL_INFO : List LabelInfo := [
  ⟨"org.openbuildservice", "disturl", true, true, some .disturl⟩,
  ⟨"org.opencontainers.image", "title", true, true, none⟩,
  ⟨"org.opencontainers.image", "description", true, true, none⟩,
  ⟨"org.opencontainers.image", "version", true, true, none⟩,
  ⟨"org.opencontainers.image", "created", true, true, none⟩,
  ⟨"org.opencontainers.image", "vendor", true, false, none⟩,
  ⟨"org.opencontainers.image", "url", true, false, none⟩,
  ⟨"org.opensuse", "reference", true, true, some .reference⟩]

/-! ## Message constants

The fixed message strings of the source that the theorems below refer to
by name. -/

def disturlNotSetMsg : String :=
  "org.openbuildservice.disturl not set correctly, bug in OBS?"

def disturlHintMsg : String :=
  "No disturl in containerinfo, local build?"

def releaseErrMsg : String :=
  "No release in containerinfo, but apparently not a local build."

def uniqueMsg : String :=
  "None of the tags are unique to a specific build of the image.\nMake sure that at least one tag contains the release."

def reposWarnMsg (repos : List Repo) : String :=
  "Using manually defined repositories (" ++ String.intercalate ", " (repos.map Repo.url)
    ++ ") in the image. Only obsrepositories:/ is allowed."

def localHintMsg : String :=
  "No release and disturl found in containerinfo, probably a local osc build. Further analysis might be misleading."

def refInvalidMsg (value : String) : String :=
  "The value of the org.opensuse.reference label (" ++ value ++ ") is invalid"

def refRegistryMsg (cfg : Config) (value : String) : String :=
  "The org.opensuse.reference label (" ++ value ++ ") does not refer to " ++ cfg.registry

def refTagMsg (image : Image) (value : String) : String :=
  "The org.opensuse.reference label (" ++ value ++ ") does not refer to an existing tag ("
    ++ String.intercalate ", " image.containerinfo.tags ++ ")"

def refPinMsg (value : String) : String :=
  "The org.opensuse.reference label (" ++ value
    ++ ") does not refer to a tag identifying a specific build"

def noPfxCopyMsg : String :=
  "Could not find prefixed copy of the org.opensuse.reference label"

def ambiguousMsg (cands : List String) : String :=
  "Unable to find which of those labels is the one corresponding to this image: "
    ++ pyStrList cands

def noPfxMsg : String :=
  "Could not determine image specific label prefix, some checks will be skipped."

def vendorMsg (cfg : Config) : String :=
  "Label prefix doesn\x27t start with " ++ cfg.vendor

def notSetMsg (li : LabelInfo) : String :=
  "Label " ++ li.oci ++ " is not set by the image or any of its bases"

def orphanMsg (p : String) (li : LabelInfo) : String :=
  "Label " ++ p ++ "." ++ li.suffix ++ " set but not " ++ li.oci

def driftMsg (p : String) (li : LabelInfo) : String :=
  "Label " ++ p ++ "." ++ li.suffix ++ " not identical to " ++ li.oci

def missingDerivedMsg (p : String) (li : LabelInfo) : String :=
  "Labels " ++ li.oci ++ " and " ++ p ++ "." ++ li.suffix ++ " not specified by this image"

def allowedMsg (cfg : Config) (tag : String) : String :=
  "Tag " ++ tag ++ " is not allowed. Allowed patterns: "
    ++ String.intercalate ", " cfg.allowed ++ "."

def blockedMsg (tag pat : String) : String :=
  "Tag " ++ tag ++ " is not allowed (blocked by " ++ pat ++ ")."

/-! ## Verifiers -/

/-- `verify_disturl` from the source. -/
def verify_disturl (image : Image) (res : CheckResult) (value : String) : CheckResult :=
  match image.containerinfo.disturl with
  | none =>
    if image.is_local_build then
      res.hint disturlHintMsg
    else
      res.error "No disturl in containerinfo, but apparently not a local build."
  | some d =>
    if value ≠ d then
      res.error disturlNotSetMsg
    else res

/-- `REFERENCE_RE.fullmatch` on a character list: the regex
`([^/]+)/([^:]+):([^:]+)` splits a reference into registry, repository and
tag. -/
def refMatchL (v : List Char) : Option (List Char × List Char × List Char) :=
  (splitFirst '/' v).bind (fun hr =>
    if hr.1 = [] then none
    else
      (splitFirst ':' hr.2).bind (fun rt =>
        if rt.1 = [] ∨ rt.2 = [] ∨ ':' ∈ rt.2 then none
        else some (hr.1, rt.1, rt.2)))

/-- `verify_reference` from the source. -/
def verify_reference (cfg : Config) (image : Image) (res : CheckResult) (value : String) :
    CheckResult :=
  match refMatchL value.data with
  | none => res.error (refInvalidMsg value)
  | some (host, repoL, tagL) =>
    let registry : String := ⟨host⟩
    let repo : String := ⟨repoL⟩
    let tag : String := ⟨tagL⟩
    let res :=
      if cfg.registry ≠ "" ∧ registry ≠ cfg.registry then
        res.warn (refRegistryMsg cfg value)
      else res
    if (repo ++ ":" ++ tag) ∉ image.containerinfo.tags then
      res.warn (refTagMsg image value)
    else
      match image.containerinfo.release with
      | some rel =>
        if ¬ strContains tag rel then res.warn (refPinMsg value)
        else res
      | none => res

/-- Dispatch of the verifier table entries onto the two verify functions. -/
def runVerifier : VKind → Config → Image → CheckResult → String → CheckResult
  | .disturl, _, image, res, v => verify_disturl image res v
  | .reference, cfg, image, res, v => verify_reference cfg image res v

/-! ## Label checks -/

/-- Lines 154-156 of the source: the labels other than
`org.opensuse.reference` whose value equals `reference` and whose name ends
in `.reference`, in label-map order. -/
def reference_candidates (labels : List (String × String)) (reference : String) :
    List String :=
  ((labels.filter (fun kv => kv.2 == reference)).map (fun kv => kv.1)).filter
    (fun name => name != "org.opensuse.reference" && strEndsWith name ".reference")

/-- Lines 151-164 of the source: derive the image specific label prefix
from the `org.opensuse.reference` label, warning on zero or several
candidates. -/
def derive_pfx_result (labels : List (String × String)) (res : CheckResult) :
    Option String × CheckResult :=
  match labels.lookup "org.opensuse.reference" with
  | none => (none, res)
  | some reference =>
    let cands := reference_candidates labels reference
    if cands.length = 0 then
      (none, res.warn noPfxCopyMsg)
    else if cands.length > 1 then
      (none, res.warn (ambiguousMsg cands))
    else
      (some (dropRightStr (cands.headD "") (".reference".length)), res)

/-- Lines 180-181 of the source: run the rule's verifier on the canonical
label value when both are there. -/
def apply_verifier (cfg : Config) (image : Image) (res : CheckResult) (li : LabelInfo) :
    CheckResult :=
  match image.labels.lookup li.oci, li.verifier with
  | some v, some vk => runVerifier vk cfg image res v
  | _, _ => res

/-- Lines 183-192 of the source: the prefixed-label cross checks of one
rule, given the derived label prefix (`some ""` models the falsy empty
Python string). -/
def check_prefixed (image : Image) (labelPfx : Option String) (res : CheckResult)
    (li : LabelInfo) : CheckResult :=
  match labelPfx with
  | none => res
  | some p =>
    if p = "" then res
    else
      match image.labels.lookup (p ++ "." ++ li.suffix) with
      | some pv =>
        match image.labels.lookup li.oci with
        | none => res.warn (orphanMsg p li)
        | some cv =>
          if cv ≠ pv then res.warn (driftMsg p li)
          else res
      | none =>
        if li.mandatory_derived then res.warn (missingDerivedMsg p li)
        else res

/-- The body of the `for labelinfo in LABEL_INFO` loop of `check_labels`. -/
def check_label_rule (cfg : Config) (image : Image) (labelPfx : Option String)
    (res : CheckResult) (li : LabelInfo) : CheckResult :=
  if li.mandatory ∧ (image.labels.lookup li.oci).isNone then
    res.warn (notSetMsg li)
  else
    check_prefixed image labelPfx (apply_verifier cfg image res li) li

/-- Line 147-148 of the source: the canonical disturl label must be there. -/
def disturl_presence_check (labels : List (String × String)) (res : CheckResult) :
    CheckResult :=
  if (labels.lookup "org.openbuildservice.disturl").isNone then
    res.error disturlNotSetMsg
  else res

/-- Lines 166-172 of the source: warn when no (truthy) prefix was derived,
otherwise check it against the configured vendor. -/
def pfx_warn (cfg : Config) (labelPfx : Option String) (res : CheckResult) : CheckResult :=
  match labelPfx with
  | none => res.warn noPfxMsg
  | some p =>
    if p = "" then res.warn noPfxMsg
    else if cfg.vendor ≠ "" ∧ ¬ strStartsWith p (cfg.vendor ++ ".") then
      res.warn (vendorMsg cfg)
    else res

/-- `check_labels` from the source. -/
def check_labels (cfg : Config) (image : Image) (res0 : CheckResult) : CheckResult :=
  let labels := image.labels
  let res := disturl_presence_check labels res0
  let dr := derive_pfx_result labels res
  let labelPfx := dr.1
  let res := dr.2
  let res := pfx_warn cfg labelPfx res
  LABEL_INFO.foldl (check_label_rule cfg image labelPfx) res

/-! ## Image checks -/

/-- The body of the `for tag in image.containerinfo["tags"]` loop of
`check_image`, threading the accumulator and the `releasetagfound` flag. -/
def check_tag_step (cfg : Config) (ci : Containerinfo) (acc : CheckResult × Bool)
    (tag : String) : CheckResult × Bool :=
  let res := acc.1
  let res :=
    if cfg.allowed ≠ [] ∧ (match_patterns tag cfg.allowed).isNone then
      res.warn (allowedMsg cfg tag)
    else res
  let res :=
    match match_patterns tag cfg.blocked with
    | some pat => res.warn (blockedMsg tag pat)
    | none => res
  let found := acc.2 ||
    (match ci.release with
     | some rel => strContains tag rel
     | none => false)
  (res, found)

/-- Lines 205-207 of the source: hint when the image is a local build. -/
def local_hint (image : Image) (res : CheckResult) : CheckResult :=
  if image.is_local_build then res.hint localHintMsg
  else res

/-- Lines 209-212 of the source: warn about manually defined repositories. -/
def repos_check (image : Image) (res : CheckResult) : CheckResult :=
  match image.containerinfo.repos with
  | some repos =>
    if repos ≠ [⟨"obsrepositories:/"⟩] then res.warn (reposWarnMsg repos)
    else res
  | none => res

/-- Lines 214-218 of the source: a missing release on a non-local build is
an error. -/
def release_check (image : Image) (res : CheckResult) : CheckResult :=
  match image.containerinfo.release with
  | some _ => res
  | none =>
    if ¬ image.is_local_build then res.error releaseErrMsg
    else res

/-- Lines 237-239 of the source: warn when no tag pins the release. -/
def unique_tag_warn (image : Image) (acc : CheckResult × Bool) : CheckResult :=
  if ¬ acc.2 ∧ ¬ image.is_local_build then acc.1.warn uniqueMsg
  else acc.1

/-- `check_image` from the source. -/
def check_image (cfg : Config) (image : Image) (res0 : CheckResult) : CheckResult :=
  let ci := image.containerinfo
  let res := local_hint image res0
  let res := repos_check image res
  let res := release_check image res
  let acc := ci.tags.foldl (check_tag_step cfg ci) (res, false)
  let res := unique_tag_warn image acc
  check_labels cfg image res

/-! ## Exit code -/

/-- The top-level exit logic of the source (lines 296-309). -/
def exit_code (cfg : Config) (r : CheckResult) : Nat :=
  let ret := 0
  let ret :=
    if r.warnings.length > 0 then
      if cfg.fatalWarnings then 1 else ret
    else ret
  let ret := if r.errors.length > 0 then 1 else ret
  ret

/-! ## Archive reader (`Image.__init__`) -/

/-- JSON values, as far as the archive reader inspects them. -/
inductive JVal where
  | jnull : JVal
  | jbool : Bool → JVal
  | jnum : Int → JVal
  | jstr : String → JVal
  | jarr : List JVal → JVal
  | jobj : List (String × JVal) → JVal

/-- Field access on a JSON object. -/
def JVal.getObjField : JVal → String → Option JVal
  | .jobj fields, k => fields.lookup k
  | _, _ => none

/-- A tar archive, abstracted to its member names and a member-to-parsed-JSON
reader (`tar.extractfile` composed with `json.load`; `none` models any
read or parse failure, which the source propagates). -/
structure Tar where
  names : List String
  extract : String → Option JVal

/-- `digest.replace(":", "/")` prefixed with `blobs/`. -/
def digestPath (digest : String) : String :=
  "blobs/" ++ ⟨digest.data.map (fun c => if c = ':' then '/' else c)⟩

/-- The image as built by `Image.__init__`, before the policy engine
normalizes it. -/
structure ImageFull where
  containerinfo : Containerinfo
  index : Option JVal
  manifest : JVal
  configJson : JVal

/-- `Image.__init__` from the source: detect the archive format, require
exactly one top-level image entry, and resolve the configuration blob.
Every raised Python exception is an `Except.error`. -/
def imageInit (ci : Containerinfo) (tar : Tar) : Except String ImageFull :=
  if "oci-layout" ∈ tar.names then
    match tar.extract "index.json" with
    | none => .error "could not read index.json"
    | some index =>
      match index.getObjField "manifests" with
      | some (.jarr manifests) =>
        if manifests.length ≠ 1 then .error "OCI index doesn\x27t have exactly one entry"
        else
          match (manifests.headD .jnull).getObjField "digest" with
          | some (.jstr digest) =>
            match tar.extract (digestPath digest) with
            | none => .error "could not read manifest blob"
            | some manifest =>
              match manifest.getObjField "config" with
              | some cfgRef =>
                match cfgRef.getObjField "digest" with
                | some (.jstr cdigest) =>
                  match tar.extract (digestPath cdigest) with
                  | none => .error "could not read config blob"
                  | some configJson => .ok ⟨ci, some index, manifest, configJson⟩
                | _ => .error "missing digest of config blob"
              | none => .error "missing config in manifest"
          | _ => .error "missing digest in index entry"
      | _ => .error "missing manifests in index"
  else
    match tar.extract "manifest.json" with
    | none => .error "could not read manifest.json"
    | some (.jarr entries) =>
      if entries.length ≠ 1 then .error "Manifest doesn\x27t have exactly one entry"
      else
        match (entries.headD .jnull).getObjField "Config" with
        | some (.jstr cpath) =>
          match tar.extract cpath with
          | none => .error "could not read config"
          | some configJson => .ok ⟨ci, none, .jarr entries, configJson⟩
        | _ => .error "missing Config in manifest entry"
    | some _ => .error "manifest.json is not a list"

/-- `image.config.get("config", {}).get("Labels", {})`: the normalized
label map of a parsed configuration blob. -/
def getLabels (configJson : JVal) : List (String × String) :=
  match configJson.getObjField "config" with
  | some c =>
    match c.getObjField "Labels" with
    | some (.jobj fields) =>
      fields.filterMap (fun kv =>
        match kv.2 with
        | .jstr s => some (kv.1, s)
        | _ => none)
    | _ => []
  | none => []

/-- One iteration of the main loop: build the image from the archive and
run `check_image` on it; an extraction failure propagates and leaves the
accumulated result untouched. -/
def processImage (cfg : Config) (ci : Containerinfo) (tar : Tar) (res : CheckResult) :
    Except String CheckResult :=
  match imageInit ci tar with
  | .error e => .error e
  | .ok img => .ok (check_image cfg ⟨ci, getLabels img.configJson⟩ res)

/-! ## Derived specification predicates

These definitions restate conditions of the code as standalone predicates
so that the theorems below can quantify over them. -/

/-- The value the `releasetagfound` flag of `check_image` has after the tag
loop: some tag contains the release as a substring. -/
def release_found (image : Image) : Bool :=
  image.containerinfo.tags.any (fun tag =>
    match image.containerinfo.release with
    | some rel => strContains tag rel
    | none => false)

/-- The repository check of `check_image` fires: `repos` is present and is
not exactly the single `obsrepositories:/` sentinel entry. -/
def repos_nonstandard (image : Image) : Bool :=
  match image.containerinfo.repos with
  | some repos => decide (repos ≠ [⟨"obsrepositories:/"⟩])
  | none => false

/-- The disturl verifier accepts `v` without a warning or error (a hint is
still possible): either the metadata has no disturl and the image is a
local build, or the metadata disturl equals `v`. -/
def disturl_value_ok (image : Image) (v : String) : Bool :=
  match image.containerinfo.disturl with
  | none => image.is_local_build
  | some d => v == d

/-- The reference verifier accepts `v` without any finding: it parses as
`host/repo:tag`, the host matches the configured registry (if any),
`repo:tag` is one of the image's tags, and the tag pins the release
(if known). -/
def reference_value_ok (cfg : Config) (image : Image) (v : String) : Bool :=
  match refMatchL v.data with
  | none => false
  | some (host, repoL, tagL) =>
    let registry : String := ⟨host⟩
    let repo : String := ⟨repoL⟩
    let tag : String := ⟨tagL⟩
    (cfg.registry == "" || registry == cfg.registry)
      && image.containerinfo.tags.contains (repo ++ ":" ++ tag)
      && (match image.containerinfo.release with
          | some rel => strContains tag rel
          | none => true)

/-- The verifier attached to a rule accepts the canonical label value. -/
def verifier_ok (cfg : Config) (image : Image) : Option VKind → String → Bool
  | none, _ => true
  | some .disturl, v => disturl_value_ok image v
  | some .reference, v => reference_value_ok cfg image v

/-- A single rule of the label table passes without warnings or errors,
given the derived label prefix `p`: the canonical label is present, its
verifier accepts the value, and the prefixed copy is identical when present
and may be absent only for rules that are not mandatory-when-derived. -/
def rule_ok (cfg : Config) (image : Image) (p : String) (li : LabelInfo) : Bool :=
  match image.labels.lookup li.oci with
  | none => false
  | some v =>
    verifier_ok cfg image li.verifier v
      && (match image.labels.lookup (p ++ "." ++ li.suffix) with
          | some pv => pv == v
          | none => !li.mandatory_derived)

/-- An already-compliant image: the canonical disturl label is present, the
label prefix is uniquely derivable and nonempty, it starts with the
configured vendor (if any), and every rule of the table passes. -/
def compliant (cfg : Config) (image : Image) : Bool :=
  (image.labels.lookup "org.openbuildservice.disturl").isSome
    && (match image.labels.lookup "org.opensuse.reference" with
        | none => false
        | some rv =>
          match reference_candidates image.labels rv with
          | [name] =>
            let p := dropRightStr name (".reference".length)
            (p != "")
              && (cfg.vendor == "" || strStartsWith p (cfg.vendor ++ "."))
              && LABEL_INFO.all (rule_ok cfg image p)
          | _ => false)

/-- The first two characters of every warning template `check_labels` can
emit; no such warning can collide with the tag-loop, repository or
uniqueness warnings of `check_image`. -/
def warnHeads : List (List Char) :=
  [['C', 'o'], ['U', 'n'], ['L', 'a'], ['T', 'h']]

/-! ## Concrete instances used by witnesses and counterexamples -/

/-- A configuration with every option unset. -/
def cfgEmpty : Config := ⟨false, "", "", [], []⟩

/-- A containerinfo with neither `release` nor `disturl`: a local build. -/
def ciLocal : Containerinfo := ⟨"image.tar", [], none, none, none⟩

/-- A containerinfo with a disturl but no release: not a local build. -/
def ciNoRelease : Containerinfo := ⟨"image.tar", [], some "obs://build/x", none, none⟩

/-- A containerinfo pinning a manually defined repository. -/
def ciRepos : Containerinfo :=
  ⟨"image.tar", [], none, none, some [⟨"https://example.com/repo"⟩]⟩

/-- An OCI archive whose index has two manifest entries. -/
def tarTwoOCI : Tar :=
  ⟨["oci-layout", "index.json"],
   fun n =>
     if n = "index.json" then
       some (JVal.jobj [("manifests", JVal.jarr [JVal.jobj [], JVal.jobj []])])
     else none⟩

/-- A legacy archive whose `manifest.json` is an empty list. -/
def tarZeroLegacy : Tar :=
  ⟨["manifest.json"],
   fun n => if n = "manifest.json" then some (JVal.jarr []) else none⟩

/-- A label set with exactly one prefixed copy of the reference label. -/
def labelsOneRef : List (String × String) :=
  [("org.opensuse.reference", "X"), ("a.reference", "X")]

/-- A configuration declaring the vendor `org`. -/
def cfgVendor : Config := ⟨false, "org", "", [], []⟩

/-- The containerinfo of a fully compliant image. -/
def ciCompliant : Containerinfo :=
  ⟨"image.tar", ["foo/bar:1.0-5"], some "obs://build/x", some "5", none⟩

/-- The label set of a fully compliant image: every canonical label, a
uniquely derivable `org.example` prefix, and identical prefixed copies of
every mandatory-when-derived label. -/
def labelsCompliant : List (String × String) :=
  [("org.openbuildservice.disturl", "obs://build/x"),
   ("org.opensuse.reference", "reg.example.com/foo/bar:1.0-5"),
   ("org.example.reference", "reg.example.com/foo/bar:1.0-5"),
   ("org.opencontainers.image.title", "T"),
   ("org.opencontainers.image.description", "D"),
   ("org.opencontainers.image.version", "V"),
   ("org.opencontainers.image.created", "C"),
   ("org.opencontainers.image.vendor", "Ven"),
   ("org.opencontainers.image.url", "U"),
   ("org.example.disturl", "obs://build/x"),
   ("org.example.title", "T"),
   ("org.example.description", "D"),
   ("org.example.version", "V"),
   ("org.example.created", "C")]

/-- The fully compliant image. -/
def imgCompliant : Image := ⟨ciCompliant, labelsCompliant⟩

/-! # Theorems -/

/-! ## CheckResult accounting -/

@[simp] theorem hints_warn (r : CheckResult) (m : String) : (r.warn m).hints = r.hints := rfl

@[simp] theorem warnings_warn (r : CheckResult) (m : String) :
    (r.warn m).warnings = r.warnings ++ [m] := rfl

@[simp] theorem errors_warn (r : CheckResult) (m : String) : (r.warn m).errors = r.errors := rfl

@[simp] theorem hints_hint (r : CheckResult) (m : String) : (r.hint m).hints = r.hints ++ [m] := rfl

@[simp] theorem warnings_hint (r : CheckResult) (m : String) : (r.hint m).warnings = r.warnings := rfl

@[simp] theorem errors_hint (r : CheckResult) (m : String) : (r.hint m).errors = r.errors := rfl

@[simp] theorem hints_error (r : CheckResult) (m : String) : (r.error m).hints = r.hints := rfl

@[simp] theorem warnings_error (r : CheckResult) (m : String) : (r.error m).warnings = r.warnings := rfl

@[simp] theorem errors_error (r : CheckResult) (m : String) :
    (r.error m).errors = r.errors ++ [m] := rfl

/-! ## Message-head bookkeeping -/

theorem take2_append_chain {s : String} {cs : List Char} (t : String)
    (h : take2 s = cs) (h2 : 2 ≤ s.data.length) :
    take2 (s ++ t) = cs ∧ 2 ≤ (s ++ t).data.length := by
  constructor
  · rw [take2, String.data_append, List.take_append_eq_append_take,
      Nat.sub_eq_zero_of_le h2, List.take_zero, List.append_nil]
    exact h
  · rw [String.data_append, List.length_append]
    omega

theorem count_eq_zero_of_heads {t : List String} {S : List (List Char)}
    (hm : ∀ m ∈ t, take2 m ∈ S) {x : String} (hx : take2 x ∉ S) : t.count x = 0 :=
  List.count_eq_zero.mpr (fun h => hx (hm x h))

/-! ## String suffix and split facts -/

theorem strEndsWith_iff {s suf : String} :
    strEndsWith s suf = true ↔ ∃ pre : String, s = pre ++ suf := by
  rw [strEndsWith, List.isSuffixOf_iff_suffix]
  constructor
  · rintro ⟨pre, hpre⟩
    exact ⟨⟨pre⟩, by apply String.ext; rw [String.data_append]; exact hpre.symm⟩
  · rintro ⟨pre, rfl⟩
    exact ⟨pre.data, (String.data_append pre suf).symm⟩

theorem splitFirst_eq_some {c : Char} {l : List Char} : ∀ {a b : List Char},
    splitFirst c l = some (a, b) ↔ l = a ++ c :: b ∧ c ∉ a := by
  induction l with
  | nil => intro a b; simp [splitFirst]
  | cons x xs ih =>
    intro a b
    by_cases hx : x = c
    · subst hx
      simp only [splitFirst, if_pos rfl, Option.some.injEq, Prod.mk.injEq]
      constructor
      · rintro ⟨rfl, rfl⟩
        simp
      · rintro ⟨heq, hmem⟩
        cases a with
        | nil => simpa using heq
        | cons y ys =>
          exfalso
          injection heq with h1 h2
          subst h1
          exact hmem (List.mem_cons_self _ _)
    · simp only [splitFirst, if_neg hx, Option.map_eq_some']
      constructor
      · rintro ⟨⟨a', b'⟩, hs, hab⟩
        injection hab with h1 h2
        subst h1
        subst h2
        obtain ⟨hxs, hmm⟩ := ih.mp hs
        refine ⟨by rw [List.cons_append, hxs], ?_⟩
        intro hmem
        rcases List.mem_cons.mp hmem with h1 | h2
        · exact hx h1.symm
        · exact hmm h2
      · rintro ⟨heq, hmem⟩
        cases a with
        | nil =>
          exfalso
          injection heq with h1 h2
          exact hx h1
        | cons y ys =>
          injection heq with h1 h2
          subst h1
          exact ⟨(ys, b), ih.mpr ⟨h2, fun hmm => hmem (List.mem_cons_of_mem _ hmm)⟩, rfl⟩

theorem refMatchL_eq_some {v host repo tag : List Char} :
    refMatchL v = some (host, repo, tag) ↔
      (v = host ++ '/' :: (repo ++ ':' :: tag) ∧ host ≠ [] ∧ '/' ∉ host
        ∧ repo ≠ [] ∧ ':' ∉ repo ∧ tag ≠ [] ∧ ':' ∉ tag) := by
  constructor
  · intro h
    unfold refMatchL at h
    rw [Option.bind_eq_some] at h
    obtain ⟨⟨h0, rest⟩, hs, h⟩ := h
    by_cases h0e : h0 = []
    · rw [if_pos h0e] at h; cases h
    · rw [if_neg h0e] at h
      rw [Option.bind_eq_some] at h
      obtain ⟨⟨r0, t0⟩, hs2, h⟩ := h
      by_cases hc : r0 = [] ∨ t0 = [] ∨ ':' ∈ t0
      · rw [if_pos hc] at h; cases h
      · rw [if_neg hc] at h
        simp only [Option.some.injEq, Prod.mk.injEq] at h
        obtain ⟨rfl, rfl, rfl⟩ := h
        push_neg at hc
        obtain ⟨hv, hmem⟩ := splitFirst_eq_some.mp hs
        obtain ⟨hv2, hmem2⟩ := splitFirst_eq_some.mp hs2
        subst hv2
        exact ⟨hv, h0e, hmem, hc.1, hmem2, hc.2.1, hc.2.2⟩
  · rintro ⟨rfl, hne, hmem, rne, rmem, tne, tmem⟩
    have h1 : splitFirst '/' (host ++ '/' :: (repo ++ ':' :: tag))
        = some (host, repo ++ ':' :: tag) := splitFirst_eq_some.mpr ⟨rfl, hmem⟩
    have h2 : splitFirst ':' (repo ++ ':' :: tag) = some (repo, tag) :=
      splitFirst_eq_some.mpr ⟨rfl, rmem⟩
    unfold refMatchL
    rw [h1, Option.some_bind, if_neg hne, h2, Option.some_bind,
      if_neg (by simp [rne, tne, tmem])]

/-! ## First characters of the message templates -/

theorem take2_refInvalidMsg (value : String) : take2 (refInvalidMsg value) = ['T', 'h'] := by
  have a1 := take2_append_chain value
    (show take2 "The value of the org.opensuse.reference label (" = ['T', 'h'] by decide)
    (by decide)
  have a2 := take2_append_chain ") is invalid" a1.1 a1.2
  exact a2.1

theorem take2_refRegistryMsg (cfg : Config) (value : String) :
    take2 (refRegistryMsg cfg value) = ['T', 'h'] := by
  have a1 := take2_append_chain value
    (show take2 "The org.opensuse.reference label (" = ['T', 'h'] by decide) (by decide)
  have a2 := take2_append_chain ") does not refer to " a1.1 a1.2
  have a3 := take2_append_chain cfg.registry a2.1 a2.2
  exact a3.1

theorem take2_refTagMsg (image : Image) (value : String) :
    take2 (refTagMsg image value) = ['T', 'h'] := by
  have a1 := take2_append_chain value
    (show take2 "The org.opensuse.reference label (" = ['T', 'h'] by decide) (by decide)
  have a2 := take2_append_chain ") does not refer to an existing tag (" a1.1 a1.2
  have a3 := take2_append_chain (String.intercalate ", " image.containerinfo.tags) a2.1 a2.2
  have a4 := take2_append_chain ")" a3.1 a3.2
  exact a4.1

theorem take2_refPinMsg (value : String) : take2 (refPinMsg value) = ['T', 'h'] := by
  have a1 := take2_append_chain value
    (show take2 "The org.opensuse.reference label (" = ['T', 'h'] by decide) (by decide)
  have a2 := take2_append_chain ") does not refer to a tag identifying a specific build" a1.1 a1.2
  exact a2.1

theorem take2_noPfxCopyMsg : take2 noPfxCopyMsg = ['C', 'o'] := by decide

theorem take2_ambiguousMsg (cands : List String) : take2 (ambiguousMsg cands) = ['U', 'n'] := by
  have a1 := take2_append_chain (pyStrList cands)
    (show take2 "Unable to find which of those labels is the one corresponding to this image: "
      = ['U', 'n'] by decide) (by decide)
  exact a1.1

theorem take2_noPfxMsg : take2 noPfxMsg = ['C', 'o'] := by decide

theorem take2_vendorMsg (cfg : Config) : take2 (vendorMsg cfg) = ['L', 'a'] := by
  have a1 := take2_append_chain cfg.vendor
    (show take2 "Label prefix doesn\x27t start with " = ['L', 'a'] by decide) (by decide)
  exact a1.1

theorem take2_notSetMsg (li : LabelInfo) : take2 (notSetMsg li) = ['L', 'a'] := by
  have a1 := take2_append_chain li.oci (show take2 "Label " = ['L', 'a'] by decide) (by decide)
  have a2 := take2_append_chain " is not set by the image or any of its bases" a1.1 a1.2
  exact a2.1

theorem take2_orphanMsg (p : String) (li : LabelInfo) : take2 (orphanMsg p li) = ['L', 'a'] := by
  have a1 := take2_append_chain p (show take2 "Label " = ['L', 'a'] by decide) (by decide)
  have a2 := take2_append_chain "." a1.1 a1.2
  have a3 := take2_append_chain li.suffix a2.1 a2.2
  have a4 := take2_append_chain " set but not " a3.1 a3.2
  have a5 := take2_append_chain li.oci a4.1 a4.2
  exact a5.1

theorem take2_driftMsg (p : String) (li : LabelInfo) : take2 (driftMsg p li) = ['L', 'a'] := by
  have a1 := take2_append_chain p (show take2 "Label " = ['L', 'a'] by decide) (by decide)
  have a2 := take2_append_chain "." a1.1 a1.2
  have a3 := take2_append_chain li.suffix a2.1 a2.2
  have a4 := take2_append_chain " not identical to " a3.1 a3.2
  have a5 := take2_append_chain li.oci a4.1 a4.2
  exact a5.1

theorem take2_missingDerivedMsg (p : String) (li : LabelInfo) :
    take2 (missingDerivedMsg p li) = ['L', 'a'] := by
  have a1 := take2_append_chain li.oci (show take2 "Labels " = ['L', 'a'] by decide) (by decide)
  have a2 := take2_append_chain " and " a1.1 a1.2
  have a3 := take2_append_chain p a2.1 a2.2
  have a4 := take2_append_chain "." a3.1 a3.2
  have a5 := take2_append_chain li.suffix a4.1 a4.2
  have a6 := take2_append_chain " not specified by this image" a5.1 a5.2
  exact a6.1

theorem take2_allowedMsg (cfg : Config) (tag : String) :
    take2 (allowedMsg cfg tag) = ['T', 'a'] := by
  have a1 := take2_append_chain tag (show take2 "Tag " = ['T', 'a'] by decide) (by decide)
  have a2 := take2_append_chain " is not allowed. Allowed patterns: " a1.1 a1.2
  have a3 := take2_append_chain (String.intercalate ", " cfg.allowed) a2.1 a2.2
  have a4 := take2_append_chain "." a3.1 a3.2
  exact a4.1

theorem take2_blockedMsg (tag pat : String) : take2 (blockedMsg tag pat) = ['T', 'a'] := by
  have a1 := take2_append_chain tag (show take2 "Tag " = ['T', 'a'] by decide) (by decide)
  have a2 := take2_append_chain " is not allowed (blocked by " a1.1 a1.2
  have a3 := take2_append_chain pat a2.1 a2.2
  have a4 := take2_append_chain ")." a3.1 a3.2
  exact a4.1

theorem take2_reposWarnMsg (repos : List Repo) : take2 (reposWarnMsg repos) = ['U', 's'] := by
  have a1 := take2_append_chain (String.intercalate ", " (repos.map Repo.url))
    (show take2 "Using manually defined repositories (" = ['U', 's'] by decide) (by decide)
  have a2 := take2_append_chain ") in the image. Only obsrepositories:/ is allowed." a1.1 a1.2
  exact a2.1

theorem take2_uniqueMsg : take2 uniqueMsg = ['N', 'o'] := by decide

/-! ## Behaviour of the verifiers -/

theorem verify_disturl_local (image : Image) (res : CheckResult) (v : String)
    (h : image.containerinfo.disturl = none) (hl : image.is_local_build = true) :
    verify_disturl image res v = res.hint disturlHintMsg := by
  simp [verify_disturl, h, hl]

theorem verify_disturl_tails (image : Image) (res : CheckResult) (v : String) :
    (verify_disturl image res v).warnings = res.warnings
      ∧ (∃ te, (verify_disturl image res v).errors = res.errors ++ te) := by
  unfold verify_disturl
  split
  · split
    · exact ⟨rfl, [], by simp⟩
    · exact ⟨rfl, ["No disturl in containerinfo, but apparently not a local build."], rfl⟩
  · split
    · exact ⟨rfl, [disturlNotSetMsg], rfl⟩
    · exact ⟨rfl, [], by simp⟩

theorem verify_reference_none_eq (cfg : Config) (image : Image) (res : CheckResult)
    (value : String) (h : refMatchL value.data = none) :
    verify_reference cfg image res value = res.error (refInvalidMsg value) := by
  simp [verify_reference, h]

theorem verify_reference_some_eq (cfg : Config) (image : Image) (res : CheckResult)
    (value : String) (host repoL tagL : List Char)
    (h : refMatchL value.data = some (host, repoL, tagL)) :
    verify_reference cfg image res value =
      ⟨res.hints,
        res.warnings
          ++ (if cfg.registry ≠ "" ∧ (⟨host⟩ : String) ≠ cfg.registry
              then [refRegistryMsg cfg value] else [])
          ++ (if ((⟨repoL⟩ : String) ++ ":" ++ (⟨tagL⟩ : String)) ∉ image.containerinfo.tags
              then [refTagMsg image value]
              else
                match image.containerinfo.release with
                | some rel => if ¬ strContains ⟨tagL⟩ rel then [refPinMsg value] else []
                | none => []),
        res.errors⟩ := by
  simp only [verify_reference, h]
  cases hr : image.containerinfo.release with
  | none => split_ifs <;> simp [CheckResult.warn]
  | some rel =>
    cases hsc : strContains (⟨tagL⟩ : String) rel <;> split_ifs <;> simp_all [CheckResult.warn]

theorem verify_reference_tails (cfg : Config) (image : Image) (res : CheckResult)
    (value : String) :
    ∃ tw te, (verify_reference cfg image res value).warnings = res.warnings ++ tw
      ∧ (verify_reference cfg image res value).errors = res.errors ++ te
      ∧ (verify_reference cfg image res value).hints = res.hints
      ∧ ∀ m ∈ tw, take2 m = ['T', 'h'] := by
  cases h : refMatchL value.data with
  | none =>
    rw [verify_reference_none_eq cfg image res value h]
    exact ⟨[], [refInvalidMsg value], by simp, rfl, rfl, by simp⟩
  | some trip =>
    obtain ⟨host, repoL, tagL⟩ := trip
    rw [verify_reference_some_eq cfg image res value host repoL tagL h]
    refine ⟨(if cfg.registry ≠ "" ∧ (⟨host⟩ : String) ≠ cfg.registry
        then [refRegistryMsg cfg value] else [])
        ++ (if ((⟨repoL⟩ : String) ++ ":" ++ (⟨tagL⟩ : String)) ∉ image.containerinfo.tags
            then [refTagMsg image value]
            else
              match image.containerinfo.release with
              | some rel => if ¬ strContains ⟨tagL⟩ rel then [refPinMsg value] else []
              | none => []),
      [], by rw [List.append_assoc], by simp, rfl, ?_⟩
    intro m hm
    rcases List.mem_append.mp hm with hm | hm
    · by_cases h1 : cfg.registry ≠ "" ∧ (⟨host⟩ : String) ≠ cfg.registry
      · rw [if_pos h1] at hm
        simp only [List.mem_singleton] at hm
        subst hm
        exact take2_refRegistryMsg cfg value
      · rw [if_neg h1] at hm
        simp at hm
    · by_cases h2 : ((⟨repoL⟩ : String) ++ ":" ++ (⟨tagL⟩ : String)) ∉ image.containerinfo.tags
      · rw [if_pos h2] at hm
        simp only [List.mem_singleton] at hm
        subst hm
        exact take2_refTagMsg image value
      · rw [if_neg h2] at hm
        cases hr : image.containerinfo.release with
        | none => simp only [hr] at hm; simp at hm
        | some rel =>
          simp only [hr] at hm
          by_cases h3 : ¬ strContains (⟨tagL⟩ : String) rel
          · rw [if_pos h3] at hm
            simp only [List.mem_singleton] at hm
            subst hm
            exact take2_refPinMsg value
          · rw [if_neg h3] at hm
            simp at hm

theorem apply_verifier_tails (cfg : Config) (image : Image) (res : CheckResult)
    (li : LabelInfo) :
    ∃ tw te, (apply_verifier cfg image res li).warnings = res.warnings ++ tw
      ∧ (apply_verifier cfg image res li).errors = res.errors ++ te
      ∧ ∀ m ∈ tw, take2 m ∈ warnHeads := by
  unfold apply_verifier
  cases image.labels.lookup li.oci with
  | none => exact ⟨[], [], by simp, by simp, by simp⟩
  | some v =>
    cases li.verifier with
    | none => exact ⟨[], [], by simp, by simp, by simp⟩
    | some vk =>
      cases vk with
      | disturl =>
        obtain ⟨hw, te, he⟩ := verify_disturl_tails image res v
        exact ⟨[], te, by simp [runVerifier, hw], by simp [runVerifier, he], by simp⟩
      | reference =>
        obtain ⟨tw, te, h1, h2, h3, h4⟩ := verify_reference_tails cfg image res v
        refine ⟨tw, te, by simp [runVerifier, h1], by simp [runVerifier, h2], ?_⟩
        intro m hm
        rw [h4 m hm]
        decide

/-! ## Behaviour of the prefix derivation -/

theorem derive_pfx_result_no_cands (labels : List (String × String)) (res : CheckResult)
    (reference : String) (h : labels.lookup "org.opensuse.reference" = some reference)
    (hc : reference_candidates labels reference = []) :
    derive_pfx_result labels res = (none, res.warn noPfxCopyMsg) := by
  simp [derive_pfx_result, h, hc]

theorem derive_pfx_result_many_cands (labels : List (String × String)) (res : CheckResult)
    (reference n₁ n₂ : String) (rest : List String)
    (h : labels.lookup "org.opensuse.reference" = some reference)
    (hc : reference_candidates labels reference = n₁ :: n₂ :: rest) :
    derive_pfx_result labels res =
      (none, res.warn (ambiguousMsg (reference_candidates labels reference))) := by
  rw [derive_pfx_result, h]
  simp only [hc]
  rw [if_neg (by simp), if_pos (by simp)]

theorem derive_pfx_result_single_cand (labels : List (String × String)) (res : CheckResult)
    (reference name : String)
    (h : labels.lookup "org.opensuse.reference" = some reference)
    (hc : reference_candidates labels reference = [name]) :
    derive_pfx_result labels res =
      (some (dropRightStr name (".reference".length)), res) := by
  simp [derive_pfx_result, h, hc]

theorem derive_pfx_result_tails (labels : List (String × String)) (res : CheckResult) :
    ∃ tw, ((derive_pfx_result labels res).2).warnings = res.warnings ++ tw
      ∧ ((derive_pfx_result labels res).2).errors = res.errors
      ∧ ((derive_pfx_result labels res).2).hints = res.hints
      ∧ ∀ m ∈ tw, take2 m ∈ warnHeads := by
  unfold derive_pfx_result
  split
  · exact ⟨[], by simp, rfl, rfl, by simp⟩
  · rename_i reference heq
    dsimp only
    split_ifs with hc1 hc2
    · refine ⟨[noPfxCopyMsg], rfl, rfl, rfl, ?_⟩
      intro m hm
      simp only [List.mem_singleton] at hm
      subst hm
      rw [take2_noPfxCopyMsg]
      decide
    · refine ⟨[ambiguousMsg (reference_candidates labels reference)], rfl, rfl, rfl, ?_⟩
      intro m hm
      simp only [List.mem_singleton] at hm
      subst hm
      rw [take2_ambiguousMsg]
      decide
    · exact ⟨[], by simp, rfl, rfl, by simp⟩

/-! ## Behaviour of the per-rule label checks -/

theorem check_prefixed_tails (image : Image) (lp : Option String) (res : CheckResult)
    (li : LabelInfo) :
    ∃ tw, (check_prefixed image lp res li).warnings = res.warnings ++ tw
      ∧ (check_prefixed image lp res li).errors = res.errors
      ∧ (check_prefixed image lp res li).hints = res.hints
      ∧ ∀ m ∈ tw, take2 m ∈ warnHeads := by
  rcases lp with _ | p
  · exact ⟨[], by simp [check_prefixed], rfl, rfl, by simp⟩
  · by_cases hp : p = ""
    · have he : check_prefixed image (some p) res li = res := by
        simp [check_prefixed, hp]
      rw [he]
      exact ⟨[], by simp, rfl, rfl, by simp⟩
    · rcases hpv : image.labels.lookup (p ++ "." ++ li.suffix) with _ | pv
      · by_cases hd : li.mandatory_derived = true
        · have he : check_prefixed image (some p) res li = res.warn (missingDerivedMsg p li) := by
            simp [check_prefixed, hp, hpv, hd]
          rw [he]
          refine ⟨[missingDerivedMsg p li], rfl, rfl, rfl, ?_⟩
          intro m hm
          simp only [List.mem_singleton] at hm
          subst hm
          rw [take2_missingDerivedMsg]
          decide
        · have he : check_prefixed image (some p) res li = res := by
            simp [check_prefixed, hp, hpv, hd]
          rw [he]
          exact ⟨[], by simp, rfl, rfl, by simp⟩
      · rcases hcv : image.labels.lookup li.oci with _ | cv
        · have he : check_prefixed image (some p) res li = res.warn (orphanMsg p li) := by
            simp [check_prefixed, hp, hpv, hcv]
          rw [he]
          refine ⟨[orphanMsg p li], rfl, rfl, rfl, ?_⟩
          intro m hm
          simp only [List.mem_singleton] at hm
          subst hm
          rw [take2_orphanMsg]
          decide
        · by_cases hne : cv = pv
          · have he : check_prefixed image (some p) res li = res := by
              simp [check_prefixed, hp, hpv, hcv, hne]
            rw [he]
            exact ⟨[], by simp, rfl, rfl, by simp⟩
          · have he : check_prefixed image (some p) res li = res.warn (driftMsg p li) := by
              simp [check_prefixed, hp, hpv, hcv, hne]
            rw [he]
            refine ⟨[driftMsg p li], rfl, rfl, rfl, ?_⟩
            intro m hm
            simp only [List.mem_singleton] at hm
            subst hm
            rw [take2_driftMsg]
            decide

theorem check_label_rule_tails (cfg : Config) (image : Image) (lp : Option String)
    (res : CheckResult) (li : LabelInfo) :
    ∃ tw te, (check_label_rule cfg image lp res li).warnings = res.warnings ++ tw
      ∧ (check_label_rule cfg image lp res li).errors = res.errors ++ te
      ∧ ∀ m ∈ tw, take2 m ∈ warnHeads := by
  unfold check_label_rule
  split_ifs with hmand
  · refine ⟨[notSetMsg li], [], rfl, by simp, ?_⟩
    intro m hm
    simp only [List.mem_singleton] at hm
    subst hm
    rw [take2_notSetMsg]
    decide
  · obtain ⟨tw1, te1, h1, h2, h3⟩ := apply_verifier_tails cfg image res li
    obtain ⟨tw2, g1, g2, g3, g4⟩ :=
      check_prefixed_tails image lp (apply_verifier cfg image res li) li
    refine ⟨tw1 ++ tw2, te1, ?_, ?_, ?_⟩
    · rw [g1, h1, List.append_assoc]
    · rw [g2, h2]
    · intro m hm
      rcases List.mem_append.mp hm with hm | hm
      · exact h3 m hm
      · exact g4 m hm

theorem foldl_rule_tails (cfg : Config) (image : Image) (lp : Option String) :
    ∀ (rules : List LabelInfo) (res : CheckResult),
    ∃ tw te, (rules.foldl (check_label_rule cfg image lp) res).warnings = res.warnings ++ tw
      ∧ (rules.foldl (check_label_rule cfg image lp) res).errors = res.errors ++ te
      ∧ ∀ m ∈ tw, take2 m ∈ warnHeads := by
  intro rules
  induction rules with
  | nil => intro res; exact ⟨[], [], by simp, by simp, by simp⟩
  | cons li rest ih =>
    intro res
    obtain ⟨tw1, te1, h1, h2, h3⟩ := check_label_rule_tails cfg image lp res li
    obtain ⟨tw2, te2, g1, g2, g3⟩ := ih (check_label_rule cfg image lp res li)
    refine ⟨tw1 ++ tw2, te1 ++ te2, ?_, ?_, ?_⟩
    · rw [List.foldl_cons, g1, h1, List.append_assoc]
    · rw [List.foldl_cons, g2, h2, List.append_assoc]
    · intro m hm
      rcases List.mem_append.mp hm with hm | hm
      · exact h3 m hm
      · exact g3 m hm

theorem disturl_presence_check_tails (labels : List (String × String)) (res : CheckResult) :
    (disturl_presence_check labels res).warnings = res.warnings
      ∧ (disturl_presence_check labels res).hints = res.hints
      ∧ ∃ te, (disturl_presence_check labels res).errors = res.errors ++ te := by
  unfold disturl_presence_check
  split_ifs
  · exact ⟨rfl, rfl, [disturlNotSetMsg], rfl⟩
  · exact ⟨rfl, rfl, [], by simp⟩

theorem pfx_warn_tails (cfg : Config) (lp : Option String) (res : CheckResult) :
    ∃ tw, (pfx_warn cfg lp res).warnings = res.warnings ++ tw
      ∧ (pfx_warn cfg lp res).errors = res.errors
      ∧ (pfx_warn cfg lp res).hints = res.hints
      ∧ ∀ m ∈ tw, take2 m ∈ warnHeads := by
  unfold pfx_warn
  split
  · refine ⟨[noPfxMsg], rfl, rfl, rfl, ?_⟩
    intro m hm
    simp only [List.mem_singleton] at hm
    subst hm
    rw [take2_noPfxMsg]
    decide
  · split_ifs with hp hv
    · refine ⟨[noPfxMsg], rfl, rfl, rfl, ?_⟩
      intro m hm
      simp only [List.mem_singleton] at hm
      subst hm
      rw [take2_noPfxMsg]
      decide
    · refine ⟨[vendorMsg cfg], rfl, rfl, rfl, ?_⟩
      intro m hm
      simp only [List.mem_singleton] at hm
      subst hm
      rw [take2_vendorMsg]
      decide
    · exact ⟨[], by simp, rfl, rfl, by simp⟩

theorem check_labels_tails (cfg : Config) (image : Image) (res : CheckResult) :
    ∃ tw te, (check_labels cfg image res).warnings = res.warnings ++ tw
      ∧ (check_labels cfg image res).errors = res.errors ++ te
      ∧ ∀ m ∈ tw, take2 m ∈ warnHeads := by
  simp only [check_labels]
  obtain ⟨a1, a2, te1, a3⟩ := disturl_presence_check_tails image.labels res
  obtain ⟨tw2, b1, b2, b3, b4⟩ :=
    derive_pfx_result_tails image.labels (disturl_presence_check image.labels res)
  obtain ⟨tw3, c1, c2, c3, c4⟩ := pfx_warn_tails cfg
    (derive_pfx_result image.labels (disturl_presence_check image.labels res)).1
    (derive_pfx_result image.labels (disturl_presence_check image.labels res)).2
  obtain ⟨tw4, te4, d1, d2, d3⟩ := foldl_rule_tails cfg image
    (derive_pfx_result image.labels (disturl_presence_check image.labels res)).1
    LABEL_INFO
    (pfx_warn cfg (derive_pfx_result image.labels (disturl_presence_check image.labels res)).1
      (derive_pfx_result image.labels (disturl_presence_check image.labels res)).2)
  refine ⟨tw2 ++ tw3 ++ tw4, te1 ++ te4, ?_, ?_, ?_⟩
  · rw [d1, c1, b1, a1]
    simp [List.append_assoc]
  · rw [d2, c2, b2, a3]
    simp [List.append_assoc]
  · intro m hm
    rcases List.mem_append.mp hm with hm | hm
    · rcases List.mem_append.mp hm with hm | hm
      · exact b4 m hm
      · exact c4 m hm
    · exact d3 m hm

/-! ## Behaviour of the tag loop and check_image -/

theorem check_tag_step_tails (cfg : Config) (ci : Containerinfo) (acc : CheckResult × Bool)
    (tag : String) :
    ∃ tw, (check_tag_step cfg ci acc tag).1.warnings = acc.1.warnings ++ tw
      ∧ (check_tag_step cfg ci acc tag).1.errors = acc.1.errors
      ∧ (check_tag_step cfg ci acc tag).1.hints = acc.1.hints
      ∧ (∀ m ∈ tw, take2 m = ['T', 'a'])
      ∧ (check_tag_step cfg ci acc tag).2 =
          (acc.2 || (match ci.release with
                     | some rel => strContains tag rel
                     | none => false)) := by
  obtain ⟨res, found⟩ := acc
  by_cases h1 : cfg.allowed ≠ [] ∧ (match_patterns tag cfg.allowed).isNone
  · rcases h2 : match_patterns tag cfg.blocked with _ | pat
    · have he : check_tag_step cfg ci (res, found) tag =
          (res.warn (allowedMsg cfg tag),
            found || (match ci.release with
                      | some rel => strContains tag rel
                      | none => false)) := by
        unfold check_tag_step
        dsimp only
        rw [if_pos h1, h2]
      rw [he]
      refine ⟨[allowedMsg cfg tag], rfl, rfl, rfl, ?_, rfl⟩
      intro m hm
      simp only [List.mem_singleton] at hm
      subst hm
      exact take2_allowedMsg cfg tag
    · have he : check_tag_step cfg ci (res, found) tag =
          ((res.warn (allowedMsg cfg tag)).warn (blockedMsg tag pat),
            found || (match ci.release with
                      | some rel => strContains tag rel
                      | none => false)) := by
        unfold check_tag_step
        dsimp only
        rw [if_pos h1, h2]
      rw [he]
      refine ⟨[allowedMsg cfg tag, blockedMsg tag pat], by simp, rfl, rfl, ?_, rfl⟩
      intro m hm
      simp only [List.mem_cons, List.mem_singleton, List.not_mem_nil, or_false] at hm
      rcases hm with rfl | rfl
      · exact take2_allowedMsg cfg tag
      · exact take2_blockedMsg tag pat
  · rcases h2 : match_patterns tag cfg.blocked with _ | pat
    · have he : check_tag_step cfg ci (res, found) tag =
          (res,
            found || (match ci.release with
                      | some rel => strContains tag rel
                      | none => false)) := by
        unfold check_tag_step
        dsimp only
        rw [if_neg h1, h2]
      rw [he]
      exact ⟨[], by simp, rfl, rfl, by simp, rfl⟩
    · have he : check_tag_step cfg ci (res, found) tag =
          (res.warn (blockedMsg tag pat),
            found || (match ci.release with
                      | some rel => strContains tag rel
                      | none => false)) := by
        unfold check_tag_step
        dsimp only
        rw [if_neg h1, h2]
      rw [he]
      refine ⟨[blockedMsg tag pat], rfl, rfl, rfl, ?_, rfl⟩
      intro m hm
      simp only [List.mem_singleton] at hm
      subst hm
      exact take2_blockedMsg tag pat

theorem tags_foldl_spec (cfg : Config) (ci : Containerinfo) :
    ∀ (tags : List String) (res : CheckResult) (found : Bool),
    ∃ tw, (tags.foldl (check_tag_step cfg ci) (res, found)).1.warnings = res.warnings ++ tw
      ∧ (tags.foldl (check_tag_step cfg ci) (res, found)).1.errors = res.errors
      ∧ (tags.foldl (check_tag_step cfg ci) (res, found)).1.hints = res.hints
      ∧ (∀ m ∈ tw, take2 m = ['T', 'a'])
      ∧ (tags.foldl (check_tag_step cfg ci) (res, found)).2 =
          (found || tags.any (fun tag =>
            match ci.release with
            | some rel => strContains tag rel
            | none => false)) := by
  intro tags
  induction tags with
  | nil => intro res found; exact ⟨[], by simp, rfl, rfl, by simp, by simp⟩
  | cons tag rest ih =>
    intro res found
    obtain ⟨tw1, h1, h2, h3, h4, h5⟩ := check_tag_step_tails cfg ci (res, found) tag
    obtain ⟨tw2, g1, g2, g3, g4, g5⟩ := ih (check_tag_step cfg ci (res, found) tag).1
      (check_tag_step cfg ci (res, found) tag).2
    refine ⟨tw1 ++ tw2, ?_, ?_, ?_, ?_, ?_⟩
    · rw [List.foldl_cons]
      have : check_tag_step cfg ci (res, found) tag =
          ((check_tag_step cfg ci (res, found) tag).1,
            (check_tag_step cfg ci (res, found) tag).2) := rfl
      rw [this] at g1 ⊢
      rw [g1, h1, List.append_assoc]
    · rw [List.foldl_cons]
      have : check_tag_step cfg ci (res, found) tag =
          ((check_tag_step cfg ci (res, found) tag).1,
            (check_tag_step cfg ci (res, found) tag).2) := rfl
      rw [this] at g2 ⊢
      rw [g2, h2]
    · rw [List.foldl_cons]
      have : check_tag_step cfg ci (res, found) tag =
          ((check_tag_step cfg ci (res, found) tag).1,
            (check_tag_step cfg ci (res, found) tag).2) := rfl
      rw [this] at g3 ⊢
      rw [g3, h3]
    · intro m hm
      rcases List.mem_append.mp hm with hm | hm
      · exact h4 m hm
      · exact g4 m hm
    · rw [List.foldl_cons]
      have : check_tag_step cfg ci (res, found) tag =
          ((check_tag_step cfg ci (res, found) tag).1,
            (check_tag_step cfg ci (res, found) tag).2) := rfl
      rw [this] at g5 ⊢
      rw [g5, h5, List.any_cons, Bool.or_assoc]

theorem local_hint_fields (image : Image) (res : CheckResult) :
    (local_hint image res).warnings = res.warnings
      ∧ (local_hint image res).errors = res.errors := by
  unfold local_hint
  split_ifs <;> exact ⟨rfl, rfl⟩

theorem repos_check_eq (image : Image) (res : CheckResult) :
    repos_check image res =
      if repos_nonstandard image then
        res.warn (reposWarnMsg (image.containerinfo.repos.getD []))
      else res := by
  unfold repos_check repos_nonstandard
  cases h : image.containerinfo.repos with
  | none => simp
  | some repos =>
    by_cases hr : repos = [⟨"obsrepositories:/"⟩]
    · simp [hr]
    · simp [hr]

theorem release_check_fields (image : Image) (res : CheckResult) :
    (release_check image res).warnings = res.warnings
      ∧ (release_check image res).hints = res.hints
      ∧ (release_check image res).errors = res.errors
          ++ (if (image.containerinfo.release.isNone && !image.is_local_build) = true
              then [releaseErrMsg] else []) := by
  unfold release_check
  cases h : image.containerinfo.release with
  | some rel => simp [h]
  | none =>
    by_cases hl : image.is_local_build = true
    · simp [h, hl]
    · simp [h, hl]

theorem unique_tag_warn_eq (image : Image) (acc : CheckResult × Bool) :
    unique_tag_warn image acc =
      if (!acc.2 && !image.is_local_build) = true then acc.1.warn uniqueMsg
      else acc.1 := by
  unfold unique_tag_warn
  by_cases h2 : acc.2 = true <;> by_cases hl : image.is_local_build = true <;> simp [h2, hl]

theorem check_image_struct (cfg : Config) (image : Image) (res : CheckResult) :
    ∃ tagTw lblTw lblTe,
      (check_image cfg image res).warnings =
        res.warnings
          ++ (if repos_nonstandard image then
                [reposWarnMsg (image.containerinfo.repos.getD [])] else [])
          ++ tagTw
          ++ (if (!release_found image && !image.is_local_build) = true then [uniqueMsg] else [])
          ++ lblTw
      ∧ (∀ m ∈ tagTw, take2 m = ['T', 'a'])
      ∧ (∀ m ∈ lblTw, take2 m ∈ warnHeads)
      ∧ (check_image cfg image res).errors =
          res.errors
            ++ (if (image.containerinfo.release.isNone && !image.is_local_build) = true
                then [releaseErrMsg] else [])
            ++ lblTe := by
  simp only [check_image]
  obtain ⟨l1, l2⟩ := local_hint_fields image res
  have hB := repos_check_eq image (local_hint image res)
  obtain ⟨r1, r2, r3⟩ := release_check_fields image (repos_check image (local_hint image res))
  obtain ⟨tagTw, f1, f2, f3, f4, f5⟩ := tags_foldl_spec cfg image.containerinfo
    image.containerinfo.tags (release_check image (repos_check image (local_hint image res)))
    false
  have hU := unique_tag_warn_eq image
    (image.containerinfo.tags.foldl (check_tag_step cfg image.containerinfo)
      (release_check image (repos_check image (local_hint image res)), false))
  obtain ⟨lblTw, lblTe, c1, c2, c3⟩ := check_labels_tails cfg image
    (unique_tag_warn image
      (image.containerinfo.tags.foldl (check_tag_step cfg image.containerinfo)
        (release_check image (repos_check image (local_hint image res)), false)))
  have hrf : image.containerinfo.tags.any (fun tag =>
      match image.containerinfo.release with
      | some rel => strContains tag rel
      | none => false) = release_found image := rfl
  rw [f5, Bool.false_or, hrf] at hU
  refine ⟨tagTw, lblTw, lblTe, ?_, f4, c3, ?_⟩
  · rw [c1, hU]
    by_cases ht : (!release_found image && !image.is_local_build) = true
    · rw [if_pos ht, if_pos ht]
      simp only [warnings_warn]
      rw [f1, r1]
      have hBw : (repos_check image (local_hint image res)).warnings =
          (local_hint image res).warnings
            ++ (if repos_nonstandard image then
                  [reposWarnMsg (image.containerinfo.repos.getD [])] else []) := by
        rw [hB]
        by_cases hrn : repos_nonstandard image = true
        · rw [if_pos hrn, if_pos hrn, warnings_warn]
        · rw [if_neg hrn, if_neg hrn, List.append_nil]
      rw [hBw, l1]
    · rw [if_neg ht, if_neg ht, List.append_nil]
      rw [f1, r1]
      have hBw : (repos_check image (local_hint image res)).warnings =
          (local_hint image res).warnings
            ++ (if repos_nonstandard image then
                  [reposWarnMsg (image.containerinfo.repos.getD [])] else []) := by
        rw [hB]
        by_cases hrn : repos_nonstandard image = true
        · rw [if_pos hrn, if_pos hrn, warnings_warn]
        · rw [if_neg hrn, if_neg hrn, List.append_nil]
      rw [hBw, l1]
  · rw [c2, hU]
    have hDe : (if (!release_found image && !image.is_local_build) = true
        then (image.containerinfo.tags.foldl (check_tag_step cfg image.containerinfo)
          (release_check image (repos_check image (local_hint image res)), false)).1.warn uniqueMsg
        else (image.containerinfo.tags.foldl (check_tag_step cfg image.containerinfo)
          (release_check image (repos_check image (local_hint image res)), false)).1).errors =
        (image.containerinfo.tags.foldl (check_tag_step cfg image.containerinfo)
          (release_check image (repos_check image (local_hint image res)), false)).1.errors := by
      by_cases ht : (!release_found image && !image.is_local_build) = true
      · rw [if_pos ht, errors_warn]
      · rw [if_neg ht]
    rw [hDe, f2, r3]
    have hBe : (repos_check image (local_hint image res)).errors =
        (local_hint image res).errors := by
      rw [hB]
      by_cases hrn : repos_nonstandard image = true
      · rw [if_pos hrn, errors_warn]
      · rw [if_neg hrn]
    rw [hBe, l2]

theorem ne_of_take2 {a b : String} (h : take2 a ≠ take2 b) : a ≠ b :=
  fun e => h (by rw [e])

theorem check_image_count_unique (cfg : Config) (image : Image) (res : CheckResult) :
    (check_image cfg image res).warnings.count uniqueMsg =
      res.warnings.count uniqueMsg
        + (if (!release_found image && !image.is_local_build) = true then 1 else 0) := by
  obtain ⟨tagTw, lblTw, lblTe, hw, hTa, hLbl, he⟩ := check_image_struct cfg image res
  rw [hw]
  simp only [List.count_append]
  have c1 : (if repos_nonstandard image = true then
      [reposWarnMsg (image.containerinfo.repos.getD [])] else []).count uniqueMsg = 0 := by
    split_ifs
    · refine List.count_eq_zero.mpr ?_
      intro hmem
      simp only [List.mem_singleton] at hmem
      have h2 := congrArg take2 hmem
      rw [take2_uniqueMsg, take2_reposWarnMsg] at h2
      exact absurd h2 (by decide)
    · rfl
  have c2 : tagTw.count uniqueMsg = 0 :=
    count_eq_zero_of_heads (fun m h => List.mem_singleton.mpr (hTa m h))
      (by rw [take2_uniqueMsg]; decide)
  have c4 : lblTw.count uniqueMsg = 0 :=
    count_eq_zero_of_heads hLbl (by rw [take2_uniqueMsg]; decide)
  rw [c1, c2, c4]
  by_cases hb : (!release_found image && !image.is_local_build) = true
  · rw [if_pos hb, if_pos hb]
    have h1 : ([uniqueMsg]).count uniqueMsg = 1 := by simp
    rw [h1]
  · rw [if_neg hb, if_neg hb]
    simp

theorem check_image_count_repos_some (cfg : Config) (image : Image) (res : CheckResult)
    (rs : List Repo) (h : image.containerinfo.repos = some rs) :
    (check_image cfg image res).warnings.count (reposWarnMsg rs) =
      res.warnings.count (reposWarnMsg rs)
        + (if rs ≠ [⟨"obsrepositories:/"⟩] then 1 else 0) := by
  obtain ⟨tagTw, lblTw, lblTe, hw, hTa, hLbl, he⟩ := check_image_struct cfg image res
  rw [hw]
  simp only [List.count_append]
  have hrn : repos_nonstandard image = decide (rs ≠ [⟨"obsrepositories:/"⟩]) := by
    unfold repos_nonstandard
    rw [h]
  have c2 : tagTw.count (reposWarnMsg rs) = 0 :=
    count_eq_zero_of_heads (fun m hm => List.mem_singleton.mpr (hTa m hm))
      (by rw [take2_reposWarnMsg]; decide)
  have c3 : (if (!release_found image && !image.is_local_build) = true
      then [uniqueMsg] else []).count (reposWarnMsg rs) = 0 := by
    split_ifs
    · refine List.count_eq_zero.mpr ?_
      intro hmem
      simp only [List.mem_singleton] at hmem
      have h2 := congrArg take2 hmem
      rw [take2_uniqueMsg, take2_reposWarnMsg] at h2
      exact absurd h2 (by decide)
    · rfl
  have c4 : lblTw.count (reposWarnMsg rs) = 0 :=
    count_eq_zero_of_heads hLbl (by rw [take2_reposWarnMsg]; decide)
  rw [c2, c3, c4]
  by_cases hb : rs = [⟨"obsrepositories:/"⟩]
  · have hrn2 : repos_nonstandard image = false := by rw [hrn, hb]; decide
    rw [hrn2]
    simp [hb]
  · have hrn2 : repos_nonstandard image = true := by
      rw [hrn]
      simp [hb]
    rw [hrn2, if_pos hb]
    have hgetD : image.containerinfo.repos.getD [] = rs := by rw [h]; rfl
    rw [if_pos rfl]
    have h1 : ([reposWarnMsg (image.containerinfo.repos.getD [])]).count (reposWarnMsg rs) = 1 := by
      rw [hgetD]
      simp
    rw [h1]

theorem check_image_count_repos_none (cfg : Config) (image : Image) (res : CheckResult)
    (h : image.containerinfo.repos = none) (rs : List Repo) :
    (check_image cfg image res).warnings.count (reposWarnMsg rs) =
      res.warnings.count (reposWarnMsg rs) := by
  obtain ⟨tagTw, lblTw, lblTe, hw, hTa, hLbl, he⟩ := check_image_struct cfg image res
  rw [hw]
  simp only [List.count_append]
  have hrn : repos_nonstandard image = false := by
    unfold repos_nonstandard
    rw [h]
  rw [hrn]
  have c2 : tagTw.count (reposWarnMsg rs) = 0 :=
    count_eq_zero_of_heads (fun m hm => List.mem_singleton.mpr (hTa m hm))
      (by rw [take2_reposWarnMsg]; decide)
  have c3 : (if (!release_found image && !image.is_local_build) = true
      then [uniqueMsg] else []).count (reposWarnMsg rs) = 0 := by
    split_ifs
    · refine List.count_eq_zero.mpr ?_
      intro hmem
      simp only [List.mem_singleton] at hmem
      have h2 := congrArg take2 hmem
      rw [take2_uniqueMsg, take2_reposWarnMsg] at h2
      exact absurd h2 (by decide)
    · rfl
  have c4 : lblTw.count (reposWarnMsg rs) = 0 :=
    count_eq_zero_of_heads hLbl (by rw [take2_reposWarnMsg]; decide)
  rw [c2, c3, c4]
  simp

/-! # Claim theorems -/

/-- C4: image extraction fails with a propagated error, recording zero
policy findings, whenever the archive's top-level image entry count is not
exactly one: for an OCI archive when `index.json`'s `manifests` array does
not have exactly one entry, and for a legacy archive when `manifest.json`
does not have exactly one element; the per-image run returns the error and
leaves the accumulated result untouched. -/
theorem c4_single_entry_required (cfg : Config) (ci : Containerinfo) (tar : Tar)
    (res : CheckResult) :
    (∀ idx ms, "oci-layout" ∈ tar.names → tar.extract "index.json" = some idx →
      idx.getObjField "manifests" = some (JVal.jarr ms) → ms.length ≠ 1 →
      imageInit ci tar = Except.error "OCI index doesn\x27t have exactly one entry"
        ∧ processImage cfg ci tar res =
            Except.error "OCI index doesn\x27t have exactly one entry")
    ∧ (∀ ms, "oci-layout" ∉ tar.names → tar.extract "manifest.json" = some (JVal.jarr ms) →
      ms.length ≠ 1 →
      imageInit ci tar = Except.error "Manifest doesn\x27t have exactly one entry"
        ∧ processImage cfg ci tar res =
            Except.error "Manifest doesn\x27t have exactly one entry") := by
  constructor
  · intro idx ms hmem hex hman hlen
    have h1 : imageInit ci tar = Except.error "OCI index doesn\x27t have exactly one entry" := by
      simp [imageInit, hmem, hex, hman, hlen]
    exact ⟨h1, by simp [processImage, h1]⟩
  · intro ms hmem hex hlen
    have h1 : imageInit ci tar = Except.error "Manifest doesn\x27t have exactly one entry" := by
      simp [imageInit, hmem, hex, hlen]
    exact ⟨h1, by simp [processImage, h1]⟩

/-- Witness for C4: an OCI archive with two index entries and a legacy
archive with zero entries both abort with the corresponding error. -/
theorem c4_witness :
    imageInit ciLocal tarTwoOCI = Except.error "OCI index doesn\x27t have exactly one entry"
      ∧ imageInit ciLocal tarZeroLegacy =
          Except.error "Manifest doesn\x27t have exactly one entry" :=
  ⟨((c4_single_entry_required cfgEmpty ciLocal tarTwoOCI emptyResult).1
      (JVal.jobj [("manifests", JVal.jarr [JVal.jobj [], JVal.jobj []])])
      [JVal.jobj [], JVal.jobj []] (by decide) rfl rfl (by decide)).1,
   ((c4_single_entry_required cfgEmpty ciLocal tarZeroLegacy emptyResult).2
      [] (by decide) rfl (by decide)).1⟩

/-- C5: the process exit code is 1 iff the error counter is positive or the
warning counter is positive with `FatalWarnings` enabled; otherwise it is
0, and no exit code other than 0 or 1 is produced. -/
theorem c5_exit_code_spec (cfg : Config) (r : CheckResult) :
    (exit_code cfg r = 1 ↔
      (0 < r.errors.length ∨ (0 < r.warnings.length ∧ cfg.fatalWarnings = true)))
    ∧ (exit_code cfg r = 0 ∨ exit_code cfg r = 1) := by
  unfold exit_code
  by_cases hw : r.warnings.length > 0 <;> by_cases he : r.errors.length > 0 <;>
    by_cases hf : cfg.fatalWarnings = true <;>
      simp [hw, he, hf]

/-- C7: the tag check emits the "none of the tags are unique" warning
exactly once when no tag contains the release as a substring and the image
is not a local build, and zero times otherwise. -/
theorem c7_unique_tag_warning (cfg : Config) (image : Image) (res : CheckResult) :
    (check_image cfg image res).warnings.count uniqueMsg =
      res.warnings.count uniqueMsg
        + (if (!release_found image && !image.is_local_build) = true then 1 else 0) :=
  check_image_count_unique cfg image res

/-- C8: exactly one repository-provenance warning naming the configured
URLs is emitted per image iff `repos` is present and differs from the
single `obsrepositories:/` sentinel entry; with `repos` absent no such
warning appears. -/
theorem c8_repos_warning (cfg : Config) (image : Image) (res : CheckResult) :
    (∀ rs, image.containerinfo.repos = some rs →
      (check_image cfg image res).warnings.count (reposWarnMsg rs) =
        res.warnings.count (reposWarnMsg rs)
          + (if rs ≠ [⟨"obsrepositories:/"⟩] then 1 else 0))
    ∧ (image.containerinfo.repos = none →
      ∀ rs, (check_image cfg image res).warnings.count (reposWarnMsg rs) =
        res.warnings.count (reposWarnMsg rs)) :=
  ⟨fun rs h => check_image_count_repos_some cfg image res rs h,
   fun h rs => check_image_count_repos_none cfg image res h rs⟩

/-- Witness for C8: an image pinning `https://example.com/repo` gets
exactly one repository warning naming that URL. -/
theorem c8_witness :
    (check_image cfgEmpty ⟨ciRepos, []⟩ emptyResult).warnings.count
        (reposWarnMsg [⟨"https://example.com/repo"⟩]) = 1 := by
  have h := (c8_repos_warning cfgEmpty ⟨ciRepos, []⟩ emptyResult).1
    [⟨"https://example.com/repo"⟩] rfl
  simpa using h

/-- C10: when `release` is absent but `disturl` is present, `check_image`
records the missing-release error, and since no tag can contain the
release, the unique-tag warning is also emitted exactly once. -/
theorem c10_missing_release_error (cfg : Config) (ci : Containerinfo)
    (labels : List (String × String)) (res : CheckResult) (d : String)
    (hrel : ci.release = none) (hdist : ci.disturl = some d) :
    (∃ te, (check_image cfg ⟨ci, labels⟩ res).errors = res.errors ++ te ∧ releaseErrMsg ∈ te)
    ∧ (check_image cfg ⟨ci, labels⟩ res).warnings.count uniqueMsg =
        res.warnings.count uniqueMsg + 1 := by
  have hlocal : Image.is_local_build ⟨ci, labels⟩ = false := by
    simp [Image.is_local_build, hdist]
  have hrf : release_found ⟨ci, labels⟩ = false := by
    unfold release_found
    simp [hrel]
  constructor
  · obtain ⟨tagTw, lblTw, lblTe, hw, hTa, hLbl, he⟩ := check_image_struct cfg ⟨ci, labels⟩ res
    have hcond : ((⟨ci, labels⟩ : Image).containerinfo.release.isNone
        && !Image.is_local_build ⟨ci, labels⟩) = true := by
      simp [hrel, hlocal]
    rw [if_pos hcond] at he
    refine ⟨[releaseErrMsg] ++ lblTe, ?_, by simp⟩
    rw [he, List.append_assoc]
  · rw [check_image_count_unique cfg ⟨ci, labels⟩ res]
    have hcond2 : (!release_found ⟨ci, labels⟩ && !Image.is_local_build ⟨ci, labels⟩) = true := by
      rw [hrf, hlocal]
      decide
    rw [if_pos hcond2]

/-- Witness for C10: a concrete image with a disturl but no release records
the missing-release error and the unique-tag warning. -/
theorem c10_witness :
    releaseErrMsg ∈ (check_image cfgEmpty ⟨ciNoRelease, []⟩ emptyResult).errors
      ∧ (check_image cfgEmpty ⟨ciNoRelease, []⟩ emptyResult).warnings.count uniqueMsg = 1 := by
  obtain ⟨⟨te, h1, h2⟩, h3⟩ := c10_missing_release_error cfgEmpty ciNoRelease [] emptyResult
    "obs://build/x" rfl rfl
  constructor
  · rw [h1]
    exact List.mem_append.mpr (Or.inr h2)
  · simpa using h3

/-- Counterexample for C1 as stated: an image whose metadata lacks both
`release` and `disturl` but whose label set lacks the canonical
`org.openbuildservice.disturl` label gets an error and no hint from label
verification, so the disturl check does not "emit a hint and never an
error regardless of whether the canonical label is present". -/
theorem c1_counterexample :
    Image.is_local_build ⟨ciLocal, []⟩ = true
      ∧ (check_labels cfgEmpty ⟨ciLocal, []⟩ emptyResult).hints = []
      ∧ (check_labels cfgEmpty ⟨ciLocal, []⟩ emptyResult).errors = [disturlNotSetMsg] :=
  ⟨rfl, rfl, rfl⟩

/-- One rule of the table leaves the hint counter untouched as long as the
rule carrying the disturl verifier has no canonical label to verify: the
reference verifier never hints and the prefixed checks only warn. -/
theorem check_label_rule_hints (cfg : Config) (image : Image) (lp : Option String)
    (res : CheckResult) (li : LabelInfo)
    (h : li.verifier = some VKind.disturl → image.labels.lookup li.oci = none) :
    (check_label_rule cfg image lp res li).hints = res.hints := by
  unfold check_label_rule
  split_ifs with hm
  · rfl
  · obtain ⟨tw2, g1, g2, g3, g4⟩ :=
      check_prefixed_tails image lp (apply_verifier cfg image res li) li
    rw [g3]
    cases hv : image.labels.lookup li.oci with
    | none => simp [apply_verifier, hv]
    | some v =>
      cases hvk : li.verifier with
      | none => simp [apply_verifier, hv, hvk]
      | some vk =>
        cases vk with
        | disturl =>
          rw [h hvk] at hv
          exact Option.noConfusion hv
        | reference =>
          obtain ⟨tw, te, h1, h2, h3, h4⟩ := verify_reference_tails cfg image res v
          have havr : apply_verifier cfg image res li = verify_reference cfg image res v := by
            simp [apply_verifier, hv, hvk, runVerifier]
          rw [havr, h3]

/-- The rule loop leaves the hint counter untouched when no rule both
carries the disturl verifier and has its canonical label present. -/
theorem foldl_rule_hints (cfg : Config) (image : Image) (lp : Option String) :
    ∀ (rules : List LabelInfo),
      (∀ li ∈ rules, li.verifier = some VKind.disturl →
        image.labels.lookup li.oci = none) →
      ∀ res, (rules.foldl (check_label_rule cfg image lp) res).hints = res.hints := by
  intro rules
  induction rules with
  | nil => intro _ res; rfl
  | cons li rest ih =>
    intro hall res
    rw [List.foldl_cons, ih (fun li2 hm => hall li2 (by simp [hm]))
      (check_label_rule cfg image lp res li),
      check_label_rule_hints cfg image lp res li (hall li (by simp))]

/-- C1 (amended): for every image whose metadata lacks both `release` and
`disturl`, `is_local_build` is true; whenever the disturl verifier runs
(the canonical label being present), it emits exactly the local-build hint
and no error; and when the canonical label is absent, label verification
emits the "not set correctly" error instead, while the disturl verifier is
never invoked and no hint at all is emitted. -/
theorem c1_amended_local_build (cfg : Config) (ci : Containerinfo)
    (labels : List (String × String)) (res : CheckResult)
    (hrel : ci.release = none) (hdist : ci.disturl = none) :
    Image.is_local_build ⟨ci, labels⟩ = true
      ∧ (∀ r v, verify_disturl ⟨ci, labels⟩ r v = r.hint disturlHintMsg)
      ∧ (labels.lookup "org.openbuildservice.disturl" = none →
          (∃ te, (check_labels cfg ⟨ci, labels⟩ res).errors = res.errors ++ te
            ∧ disturlNotSetMsg ∈ te)
          ∧ (check_labels cfg ⟨ci, labels⟩ res).hints = res.hints) := by
  have hlocal : Image.is_local_build ⟨ci, labels⟩ = true := by
    simp [Image.is_local_build, hrel, hdist]
  refine ⟨hlocal, ?_, ?_⟩
  · intro r v
    exact verify_disturl_local ⟨ci, labels⟩ r v hdist hlocal
  · intro hlk
    have hpremise : ∀ li ∈ LABEL_INFO, li.verifier = some VKind.disturl →
        (⟨ci, labels⟩ : Image).labels.lookup li.oci = none := by
      intro li hli hvk
      simp only [LABEL_INFO, List.mem_cons, List.not_mem_nil, or_false] at hli
      rcases hli with rfl | rfl | rfl | rfl | rfl | rfl | rfl | rfl
      · exact hlk
      all_goals simp at hvk
    simp only [check_labels]
    have hA : disturl_presence_check (Image.labels ⟨ci, labels⟩) res =
        res.error disturlNotSetMsg := by
      unfold disturl_presence_check
      rw [if_pos (by simp [hlk])]
    rw [hA]
    obtain ⟨tw2, b1, b2, b3, b4⟩ :=
      derive_pfx_result_tails (Image.labels ⟨ci, labels⟩) (res.error disturlNotSetMsg)
    obtain ⟨tw3, c1, c2, c3, c4⟩ := pfx_warn_tails cfg
      (derive_pfx_result (Image.labels ⟨ci, labels⟩) (res.error disturlNotSetMsg)).1
      (derive_pfx_result (Image.labels ⟨ci, labels⟩) (res.error disturlNotSetMsg)).2
    obtain ⟨tw4, te4, d1, d2, d3⟩ := foldl_rule_tails cfg ⟨ci, labels⟩
      (derive_pfx_result (Image.labels ⟨ci, labels⟩) (res.error disturlNotSetMsg)).1
      LABEL_INFO
      (pfx_warn cfg
        (derive_pfx_result (Image.labels ⟨ci, labels⟩) (res.error disturlNotSetMsg)).1
        (derive_pfx_result (Image.labels ⟨ci, labels⟩) (res.error disturlNotSetMsg)).2)
    constructor
    · refine ⟨[disturlNotSetMsg] ++ te4, ?_, by simp⟩
      rw [d2, c2, b2]
      simp [List.append_assoc]
    · rw [foldl_rule_hints cfg ⟨ci, labels⟩
        (derive_pfx_result (Image.labels ⟨ci, labels⟩) (res.error disturlNotSetMsg)).1
        LABEL_INFO hpremise
        (pfx_warn cfg
          (derive_pfx_result (Image.labels ⟨ci, labels⟩) (res.error disturlNotSetMsg)).1
          (derive_pfx_result (Image.labels ⟨ci, labels⟩) (res.error disturlNotSetMsg)).2),
        c3, b3]
      rfl

/-- Witness for C1: the amended theorem applied to a concrete local build,
both for the verifier-hint conjunct and for the absent-label conjunct
(no hint is recorded). -/
theorem c1_witness :
    verify_disturl ⟨ciLocal, []⟩ emptyResult "obs://x" = emptyResult.hint disturlHintMsg
      ∧ (check_labels cfgEmpty ⟨ciLocal, []⟩ emptyResult).hints = emptyResult.hints :=
  ⟨(c1_amended_local_build cfgEmpty ciLocal [] emptyResult rfl rfl).2.1 emptyResult "obs://x",
   ((c1_amended_local_build cfgEmpty ciLocal [] emptyResult rfl rfl).2.2 rfl).2⟩

/-- C3: `verify_reference` parses the value as `host/repository:tag`
(host before the first `/` and free of `/`, repository and tag free of `:`
so the split is at the last `:`, all three nonempty); a value that does not
parse gets exactly one error and no further checks, and a value that does
parse gets the registry-mismatch warning, the unknown-tag warning, or the
unpinned-build warning exactly under the stated conditions. -/
theorem c3_verify_reference_spec (cfg : Config) (image : Image) (res : CheckResult)
    (value : String) :
    (refMatchL value.data = none →
      verify_reference cfg image res value = res.error (refInvalidMsg value))
    ∧ (∀ host repoL tagL, refMatchL value.data = some (host, repoL, tagL) →
        (value.data = host ++ '/' :: (repoL ++ ':' :: tagL) ∧ host ≠ [] ∧ '/' ∉ host
          ∧ repoL ≠ [] ∧ ':' ∉ repoL ∧ tagL ≠ [] ∧ ':' ∉ tagL)
        ∧ verify_reference cfg image res value =
            ⟨res.hints,
              res.warnings
                ++ (if cfg.registry ≠ "" ∧ (⟨host⟩ : String) ≠ cfg.registry
                    then [refRegistryMsg cfg value] else [])
                ++ (if ((⟨repoL⟩ : String) ++ ":" ++ (⟨tagL⟩ : String))
                      ∉ image.containerinfo.tags
                    then [refTagMsg image value]
                    else
                      match image.containerinfo.release with
                      | some rel =>
                        if ¬ strContains ⟨tagL⟩ rel then [refPinMsg value] else []
                      | none => []),
              res.errors⟩) := by
  constructor
  · exact fun h => verify_reference_none_eq cfg image res value h
  · intro host repoL tagL h
    exact ⟨refMatchL_eq_some.mp h, verify_reference_some_eq cfg image res value host repoL tagL h⟩

/-- Witness for C3: a value without a `/` does not parse and yields exactly
the invalid-reference error. -/
theorem c3_witness :
    verify_reference cfgEmpty ⟨ciLocal, []⟩ emptyResult "abc" =
      CheckResult.error emptyResult (refInvalidMsg "abc") :=
  (c3_verify_reference_spec cfgEmpty ⟨ciLocal, []⟩ emptyResult "abc").1 rfl

/-- C2: with the canonical reference label present, the candidate list is
exactly the other labels ending in `.reference` whose value equals the
reference value; zero candidates warn "could not find prefixed copy", two
or more warn with the candidate list, and a single candidate yields the
label prefix with the `.reference` suffix stripped. -/
theorem c2_prefix_derivation (labels : List (String × String)) (r : String)
    (h : labels.lookup "org.opensuse.reference" = some r) (res : CheckResult) :
    (∀ name, name ∈ reference_candidates labels r ↔
      ((name, r) ∈ labels ∧ name ≠ "org.opensuse.reference"
        ∧ ∃ pre : String, name = pre ++ ".reference"))
    ∧ (reference_candidates labels r = [] →
        derive_pfx_result labels res = (none, res.warn noPfxCopyMsg))
    ∧ (∀ n₁ n₂ rest, reference_candidates labels r = n₁ :: n₂ :: rest →
        derive_pfx_result labels res =
          (none, res.warn (ambiguousMsg (reference_candidates labels r))))
    ∧ (∀ name pre, reference_candidates labels r = [name] → name = pre ++ ".reference" →
        derive_pfx_result labels res = (some pre, res)) := by
  refine ⟨?_, ?_, ?_, ?_⟩
  · intro name
    constructor
    · intro hmem
      unfold reference_candidates at hmem
      simp only [List.mem_filter, List.mem_map, Bool.and_eq_true, bne_iff_ne, ne_eq,
        beq_iff_eq] at hmem
      obtain ⟨⟨kv, ⟨hkv, hv⟩, hn⟩, hne, hend⟩ := hmem
      refine ⟨?_, hne, strEndsWith_iff.mp hend⟩
      have hkveq : kv = (name, r) := by
        cases kv
        simp_all
      rw [← hkveq]
      exact hkv
    · rintro ⟨hmem, hne, pre, rfl⟩
      unfold reference_candidates
      simp only [List.mem_filter, List.mem_map, Bool.and_eq_true, bne_iff_ne, ne_eq,
        beq_iff_eq]
      exact ⟨⟨(pre ++ ".reference", r), ⟨hmem, rfl⟩, rfl⟩, hne,
        strEndsWith_iff.mpr ⟨pre, rfl⟩⟩
  · intro hc
    exact derive_pfx_result_no_cands labels res r h hc
  · intro n₁ n₂ rest hc
    exact derive_pfx_result_many_cands labels res r n₁ n₂ rest h hc
  · intro name pre hc hpre
    rw [derive_pfx_result_single_cand labels res r name h hc]
    subst hpre
    have hdrop : dropRightStr (pre ++ ".reference") (".reference".length) = pre := by
      unfold dropRightStr
      apply String.ext
      rw [String.data_append, List.length_append]
      have hl : pre.data.length + ".reference".data.length - ".reference".length =
          pre.data.length := by
        have h10 : ".reference".length = ".reference".data.length := rfl
        omega
      rw [hl]
      exact List.take_left pre.data ".reference".data
    rw [hdrop]

/-- Witness for C2: with one other `.reference` label carrying the same
value, the derived prefix is its name minus the suffix. -/
theorem c2_witness :
    derive_pfx_result labelsOneRef emptyResult = (some "a", emptyResult) :=
  (c2_prefix_derivation labelsOneRef "X" rfl emptyResult).2.2.2 "a.reference" "a" rfl rfl

/-- C6: processing one rule of the label table: a mandatory rule with
absent canonical label gets exactly the one "not set" warning and skips
the verifier and the prefixed checks; otherwise, with a derived (nonempty)
prefix, a present prefixed label warns when the canonical label is absent
(orphaned) or its value differs (drift), and an absent prefixed label
warns exactly when the rule is mandatory-when-derived. -/
theorem c6_label_rule_spec (cfg : Config) (image : Image) (li : LabelInfo)
    (res : CheckResult) (p : String) (hp : p ≠ "") :
    (li.mandatory = true → image.labels.lookup li.oci = none →
      ∀ lp, check_label_rule cfg image lp res li = res.warn (notSetMsg li))
    ∧ (¬ (li.mandatory = true ∧ image.labels.lookup li.oci = none) →
        (∀ pv, image.labels.lookup (p ++ "." ++ li.suffix) = some pv →
          (image.labels.lookup li.oci = none →
            check_label_rule cfg image (some p) res li =
              (apply_verifier cfg image res li).warn (orphanMsg p li))
          ∧ (∀ cv, image.labels.lookup li.oci = some cv →
              (cv ≠ pv →
                check_label_rule cfg image (some p) res li =
                  (apply_verifier cfg image res li).warn (driftMsg p li))
              ∧ (cv = pv →
                check_label_rule cfg image (some p) res li =
                  apply_verifier cfg image res li)))
        ∧ (image.labels.lookup (p ++ "." ++ li.suffix) = none →
            (li.mandatory_derived = true →
              check_label_rule cfg image (some p) res li =
                (apply_verifier cfg image res li).warn (missingDerivedMsg p li))
            ∧ (li.mandatory_derived = false →
              check_label_rule cfg image (some p) res li =
                apply_verifier cfg image res li))) := by
  constructor
  · intro hm hnone lp
    unfold check_label_rule
    rw [if_pos ⟨hm, by rw [hnone]; rfl⟩]
  · intro hskip
    have hcond : ¬ (li.mandatory = true ∧ (image.labels.lookup li.oci).isNone = true) := by
      rintro ⟨a, b⟩
      exact hskip ⟨a, Option.isNone_iff_eq_none.mp b⟩
    constructor
    · intro pv hpv
      constructor
      · intro hnone
        unfold check_label_rule
        rw [if_neg hcond]
        simp [check_prefixed, hp, hpv, hnone]
      · intro cv hcv
        constructor
        · intro hne
          unfold check_label_rule
          rw [if_neg hcond]
          simp [check_prefixed, hp, hpv, hcv, hne]
        · intro heq
          unfold check_label_rule
          rw [if_neg hcond]
          simp [check_prefixed, hp, hpv, hcv, heq]
    · intro hpv
      constructor
      · intro hmd
        unfold check_label_rule
        rw [if_neg hcond]
        simp [check_prefixed, hp, hpv, hmd]
      · intro hmd
        unfold check_label_rule
        rw [if_neg hcond]
        simp [check_prefixed, hp, hpv, hmd]

/-- Witness for C6: the mandatory disturl rule on an image with no labels
gets exactly the "not set" warning. -/
theorem c6_witness :
    check_label_rule cfgEmpty ⟨ciLocal, []⟩ none emptyResult
        ⟨"org.openbuildservice", "disturl", true, true, some VKind.disturl⟩ =
      emptyResult.warn
        (notSetMsg ⟨"org.openbuildservice", "disturl", true, true, some VKind.disturl⟩) :=
  (c6_label_rule_spec cfgEmpty ⟨ciLocal, []⟩
    ⟨"org.openbuildservice", "disturl", true, true, some VKind.disturl⟩
    emptyResult "x" (by decide)).1 rfl rfl none

/-! ## Compliance: no findings -/

theorem check_label_rule_ok (cfg : Config) (image : Image) (p : String) (hp : p ≠ "")
    (li : LabelInfo) (h : rule_ok cfg image p li = true) (res : CheckResult) :
    (check_label_rule cfg image (some p) res li).warnings = res.warnings
      ∧ (check_label_rule cfg image (some p) res li).errors = res.errors := by
  unfold rule_ok at h
  cases hv : image.labels.lookup li.oci with
  | none => simp [hv] at h
  | some v =>
    simp only [hv, Bool.and_eq_true] at h
    obtain ⟨hver, hpfx⟩ := h
    have hav : (apply_verifier cfg image res li).warnings = res.warnings
        ∧ (apply_verifier cfg image res li).errors = res.errors := by
      cases hvk : li.verifier with
      | none => constructor <;> simp [apply_verifier, hv, hvk]
      | some vk =>
        have havr : apply_verifier cfg image res li = runVerifier vk cfg image res v := by
          simp [apply_verifier, hv, hvk]
        rw [havr]
        cases vk with
        | disturl =>
          have hok : disturl_value_ok image v = true := by
            rw [hvk] at hver
            exact hver
          unfold disturl_value_ok at hok
          cases hd : image.containerinfo.disturl with
          | none =>
            have hloc : image.is_local_build = true := by
              rw [hd] at hok
              exact hok
            have hrv : runVerifier VKind.disturl cfg image res v = res.hint disturlHintMsg := by
              show verify_disturl image res v = res.hint disturlHintMsg
              exact verify_disturl_local image res v hd hloc
            rw [hrv]
            exact ⟨rfl, rfl⟩
          | some d =>
            have hvd : v = d := by
              rw [hd] at hok
              exact beq_iff_eq.mp hok
            have hrv : runVerifier VKind.disturl cfg image res v = res := by
              show verify_disturl image res v = res
              simp [verify_disturl, hd, hvd]
            rw [hrv]
            exact ⟨rfl, rfl⟩
        | reference =>
          have hok : reference_value_ok cfg image v = true := by
            rw [hvk] at hver
            exact hver
          unfold reference_value_ok at hok
          cases hm : refMatchL v.data with
          | none => simp [hm] at hok
          | some trip =>
            obtain ⟨host, repoL, tagL⟩ := trip
            rw [hm] at hok
            simp only [Bool.and_eq_true] at hok
            obtain ⟨⟨hreg, htag⟩, hrel⟩ := hok
            have hmem : ((⟨repoL⟩ : String) ++ ":" ++ (⟨tagL⟩ : String))
                ∈ image.containerinfo.tags := by
              simpa using htag
            have heq := verify_reference_some_eq cfg image res v host repoL tagL hm
            simp only [Bool.or_eq_true, beq_iff_eq] at hreg
            have hA : (if cfg.registry ≠ "" ∧ (⟨host⟩ : String) ≠ cfg.registry
                then [refRegistryMsg cfg v] else []) = [] := by
              rw [if_neg ?_]
              rintro ⟨h1, h2⟩
              rcases hreg with e1 | e2
              · exact h1 e1
              · exact h2 e2
            have hB : (if ((⟨repoL⟩ : String) ++ ":" ++ (⟨tagL⟩ : String))
                  ∉ image.containerinfo.tags
                then [refTagMsg image v]
                else
                  match image.containerinfo.release with
                  | some rel => if ¬ strContains ⟨tagL⟩ rel then [refPinMsg v] else []
                  | none => []) = [] := by
              rw [if_neg (not_not_intro hmem)]
              rcases hr : image.containerinfo.release with _ | rel
              · rfl
              · have hsc : strContains (⟨tagL⟩ : String) rel = true := by
                  rw [hr] at hrel
                  exact hrel
                show (if ¬ strContains (⟨tagL⟩ : String) rel then [refPinMsg v] else []) = []
                rw [if_neg (not_not_intro hsc)]
            show (verify_reference cfg image res v).warnings = res.warnings
              ∧ (verify_reference cfg image res v).errors = res.errors
            rw [heq, hA, hB]
            constructor <;> simp
    unfold check_label_rule
    rw [if_neg (by simp [hv])]
    cases hpv : image.labels.lookup (p ++ "." ++ li.suffix) with
    | some pv =>
      have hpveq : pv = v := by
        rw [hpv] at hpfx
        exact beq_iff_eq.mp hpfx
      have hcp : check_prefixed image (some p) (apply_verifier cfg image res li) li =
          apply_verifier cfg image res li := by
        simp [check_prefixed, hp, hpv, hv, hpveq]
      rw [hcp]
      exact hav
    | none =>
      have hmd : li.mandatory_derived = false := by
        rw [hpv] at hpfx
        simpa using hpfx
      have hcp : check_prefixed image (some p) (apply_verifier cfg image res li) li =
          apply_verifier cfg image res li := by
        simp [check_prefixed, hp, hpv, hmd]
      rw [hcp]
      exact hav

theorem foldl_rule_ok (cfg : Config) (image : Image) (p : String) (hp : p ≠ "") :
    ∀ (rules : List LabelInfo), (∀ li ∈ rules, rule_ok cfg image p li = true) →
      ∀ res, (rules.foldl (check_label_rule cfg image (some p)) res).warnings = res.warnings
        ∧ (rules.foldl (check_label_rule cfg image (some p)) res).errors = res.errors := by
  intro rules
  induction rules with
  | nil => intro _ res; exact ⟨rfl, rfl⟩
  | cons li rest ih =>
    intro hall res
    obtain ⟨h1, h2⟩ := check_label_rule_ok cfg image p hp li (hall li (by simp)) res
    obtain ⟨g1, g2⟩ := ih (fun li2 hm => hall li2 (by simp [hm]))
      (check_label_rule cfg image (some p) res li)
    rw [List.foldl_cons]
    exact ⟨by rw [g1, h1], by rw [g2, h2]⟩

theorem check_labels_compliant_aux (cfg : Config) (image : Image)
    (h : compliant cfg image = true) (res : CheckResult) :
    (check_labels cfg image res).warnings = res.warnings
      ∧ (check_labels cfg image res).errors = res.errors := by
  unfold compliant at h
  simp only [Bool.and_eq_true] at h
  obtain ⟨hA, hrest⟩ := h
  cases hrv : image.labels.lookup "org.opensuse.reference" with
  | none => simp [hrv] at hrest
  | some rv =>
    simp only [hrv] at hrest
    cases hc : reference_candidates image.labels rv with
    | nil => simp [hc] at hrest
    | cons name rest =>
      cases rest with
      | cons n2 r2 => simp [hc] at hrest
      | nil =>
        simp only [hc, Bool.and_eq_true] at hrest
        obtain ⟨⟨hpne, hvend⟩, hall⟩ := hrest
        have hp : dropRightStr name (".reference".length) ≠ "" := bne_iff_ne.mp hpne
        have hAeq : disturl_presence_check image.labels res = res := by
          cases hl : image.labels.lookup "org.openbuildservice.disturl" with
          | none => rw [hl] at hA; cases hA
          | some dv => simp [disturl_presence_check, hl]
        have hBeq : derive_pfx_result image.labels res =
            (some (dropRightStr name (".reference".length)), res) :=
          derive_pfx_result_single_cand image.labels res rv name hrv hc
        have hCeq : pfx_warn cfg (some (dropRightStr name (".reference".length))) res
            = res := by
          unfold pfx_warn
          simp only [Bool.or_eq_true, beq_iff_eq] at hvend
          show (if dropRightStr name (".reference".length) = "" then res.warn noPfxMsg
              else if cfg.vendor ≠ ""
                  ∧ ¬ strStartsWith (dropRightStr name (".reference".length)) (cfg.vendor ++ ".")
                then res.warn (vendorMsg cfg)
              else res) = res
          rw [if_neg hp, if_neg ?_]
          rintro ⟨h1, h2⟩
          rcases hvend with e1 | e2
          · exact h1 e1
          · exact h2 e2
        simp only [check_labels]
        rw [hAeq, hBeq]
        dsimp only
        rw [hCeq]
        exact foldl_rule_ok cfg image (dropRightStr name (".reference".length)) hp
          LABEL_INFO (List.all_eq_true.mp hall) res

/-- C9: running label verification on an already-compliant image leaves
the warning and error counters unchanged, and running it again on the
result again leaves them unchanged. -/
theorem c9_compliant_no_findings (cfg : Config) (image : Image) (res : CheckResult)
    (h : compliant cfg image = true) :
    ((check_labels cfg image res).warnings.length = res.warnings.length
      ∧ (check_labels cfg image res).errors.length = res.errors.length)
    ∧ ((check_labels cfg image (check_labels cfg image res)).warnings.length =
          (check_labels cfg image res).warnings.length
      ∧ (check_labels cfg image (check_labels cfg image res)).errors.length =
          (check_labels cfg image res).errors.length) := by
  obtain ⟨h1, h2⟩ := check_labels_compliant_aux cfg image h res
  obtain ⟨g1, g2⟩ := check_labels_compliant_aux cfg image h (check_labels cfg image res)
  exact ⟨⟨by rw [h1], by rw [h2]⟩, ⟨by rw [g1], by rw [g2]⟩⟩

/-- Witness for C9: a concrete compliant image (all canonical labels, a
derivable `org.example` prefix under vendor `org`, identical prefixed
copies) gets zero warnings and zero errors from `check_labels`. -/
theorem c9_witness :
    compliant cfgVendor imgCompliant = true
      ∧ (check_labels cfgVendor imgCompliant emptyResult).warnings.length =
          emptyResult.warnings.length
      ∧ (check_labels cfgVendor imgCompliant emptyResult).errors.length =
          emptyResult.errors.length := by
  have hc : compliant cfgVendor imgCompliant = true := by decide
  exact ⟨hc, (c9_compliant_no_findings cfgVendor imgCompliant emptyResult hc).1.1,
    (c9_compliant_no_findings cfgVendor imgCompliant emptyResult hc).1.2⟩
